import Mathlib

/-!
Shallow embedding of the tree-planting command framework of this repository
(tree_cmd.cpp, together with the command trait tables of terraform_cmd.h and
story_cmd.h).  The world's drag area is modelled as a list of tiles in the
deterministic iteration order of TileArea (each tile of the area appears once);
per-tile packed state is modelled by the TileKind variants.  Machine integers
are modelled as Nat/Int with explicit truncation where the source relies on
fixed-width behaviour.
-/

/-- Symbolic error reasons (StringID values) used by CmdPlantTree.
INVALID_STRING_ID is modelled by the invalid constructor; errors produced by
a sub-command are carried by subError. -/
inductive Msg where
  | invalid
  | treeAlreadyHere
  | treePlantLimitReached
  | cantBuildOnWater
  | siteUnsuitable
  | wrongTerrainForTreeType
  | subError (n : Nat)
  deriving DecidableEq

/-- Cost/Result value of a command: a money amount on success, or a symbolic
failure reason (a failed CommandCost). -/
inductive CmdResult where
  | ok (cost : Int)
  | fail (msg : Msg)
  deriving DecidableEq

/-- Climate (_settings_game.game_creation.landscape). -/
inductive Landscape where
  | temperate
  | arctic
  | tropic
  | toyland
  deriving DecidableEq

/-- Tropic zone of a tile (GetTropicZone). -/
inductive TropicZone where
  | normal
  | desert
  | rainforest
  deriving DecidableEq

/-- Tree placer algorithm setting (enum TreePlacer in tree_cmd.cpp). -/
inductive TreePlacer where
  | TP_NONE
  | TP_ORIGINAL
  | TP_IMPROVED
  | TP_PERFECT
  deriving DecidableEq

/-- In-game tree placement setting (enum ExtraTreePlacement in tree_cmd.cpp). -/
inductive ExtraTreePlacement where
  | ETP_NO_SPREAD
  | ETP_SPREAD_RAINFOREST
  | ETP_SPREAD_ALL
  | ETP_NO_GROWTH_NO_SPREAD
  deriving DecidableEq

/-- Ground classes of a clear tile; snow is the value GetClearGround reports
when the snow bit is set over the raw ground. -/
inductive ClearGround where
  | grass
  | rough
  | rocks
  | fields
  | desert
  | snow
  deriving DecidableEq

/-- Ground under a trees tile (enum TreeGround). -/
inductive TreeGround where
  | shore
  | grass
  | rough
  | snowDesert
  | roughSnow
  deriving DecidableEq

/-- Discriminated per-tile packed state.  For a trees tile, count is the
GetTreeCount value (stored bits plus one, range 1..4) and growth the
GetTreeGrowth value (range 0..6).  void models INVALID_TILE /
MP_VOID targets of a wrapped tile addition. -/
inductive TileKind where
  | trees (treetype : Nat) (count : Nat) (growth : Nat) (ground : TreeGround) (density : Nat)
  | clear (raw : ClearGround) (snow : Bool) (density : Nat)
  | water (coast : Bool)
  | void
  | other
  deriving DecidableEq

/-- A world tile together with the per-tile attributes the tree code reads:
tropic zone, bridge cover, GetTileZ, TileHeight and the
IsSlopeWithOneCornerRaised test of its slope. -/
structure Tile where
  kind : TileKind
  tropicZone : TropicZone
  bridgeAbove : Bool
  tileZ : Nat
  tileHeight : Nat
  oneCornerRaised : Bool
  deriving DecidableEq

/-- Configuration snapshot threaded into every command invocation: the
settings and price/table lookups the handler consults, plus the
CMD_LANDSCAPE_CLEAR sub-command.

Modelled from the spec: the fields highestSnowLine, lowestSnowLine and
snowLine stand for HighestTreePlacementSnowLine, LowestTreePlacementSnowLine
and GetSnowLine (landscape code not under src/); treeBase and
treeCountClimate stand for the per-climate entries of
_tree_base_by_landscape and _tree_count_by_landscape (table headers not
under src/); landscapeClear stands for the CMD_LANDSCAPE_CLEAR handler
(clear_cmd.cpp not under src/), a deterministic Cost/Result plus post-state
per tile, identical in test and execute as section 8 of the spec
requires of every command. -/
structure Settings where
  treePlacer : TreePlacer
  landscape : Landscape
  gameModeEditor : Bool
  treesAroundSnowLineEnabled : Bool
  treesAroundSnowLineRange : Nat
  snowLineHeight : Nat
  mapHeightLimit : Nat
  highestSnowLine : Nat
  lowestSnowLine : Nat
  snowLine : Nat
  priceBuildTrees : Int
  treeBase : Nat
  treeCountClimate : Nat
  extraTreePlacement : ExtraTreePlacement
  treeGrowthRate : Nat
  landscapeClear : Tile → CmdResult × Tile

/-- Bit extraction GB(x, s, n) on the Nat model of a machine word. -/
def GB (x s n : Nat) : Nat := (x / 2 ^ s) % 2 ^ n

/-- IsInsideMM(x, lo, hi): membership in the half-open interval. -/
def IsInsideMM (x lo hi : Nat) : Bool := decide (lo ≤ x ∧ x < hi)

/-- IsInsideBS(x, base, size): membership in a base/size interval. -/
def IsInsideBS (x base size : Nat) : Bool := decide (base ≤ x ∧ x < base + size)

/-- TreeType constants of tree_map.h (header not under src/; values are the
standard table: 12 temperate, 8 sub-arctic, 7 rainforest, the cactus, 4
sub-tropical and 9 toyland types).  Modelled from the spec: only their
relative layout is consulted by the embedded code. -/
def TREE_TEMPERATE : Nat := 0

/-- Count of temperate tree types. -/
def TREE_COUNT_TEMPERATE : Nat := 12

/-- First sub-arctic tree type. -/
def TREE_SUB_ARCTIC : Nat := 12

/-- Count of sub-arctic tree types. -/
def TREE_COUNT_SUB_ARCTIC : Nat := 8

/-- First rainforest tree type. -/
def TREE_RAINFOREST : Nat := 20

/-- Count of rainforest tree types. -/
def TREE_COUNT_RAINFOREST : Nat := 7

/-- The cactus tree type. -/
def TREE_CACTUS : Nat := 27

/-- First sub-tropical tree type. -/
def TREE_SUB_TROPICAL : Nat := 28

/-- Count of sub-tropical tree types. -/
def TREE_COUNT_SUB_TROPICAL : Nat := 4

/-- First toyland tree type. -/
def TREE_TOYLAND : Nat := 32

/-- Count of toyland tree types. -/
def TREE_COUNT_TOYLAND : Nat := 9

/-- Invalid/random-request tree type marker. -/
def TREE_INVALID : Nat := 255

/-- INT32_MAX, the limit used when no company quota applies. -/
def INT32_MAX : Int := 2 ^ 31 - 1

/-- Modelled from the spec: one step of the synchronized 32-bit pseudo-random
stream (random_func is not under src/; the spec fixes only that the stream is
a deterministic 32-bit generator advanced identically on every peer).  The
step returns the drawn word and the new state. -/
def randomNext (s : Nat) : Nat × Nat :=
  let s2 := (s * 1103515245 + 12345) % 2 ^ 32
  (s2, s2)

/-- RandomRange(limit): a scaled draw from the synchronized stream. -/
def randomRange (limit rng : Nat) : Nat × Nat :=
  let (r, rng2) := randomNext rng
  (r * limit / 2 ^ 32, rng2)

/-- One entry of the arctic tree occurrence table
(RecalculateArcticTreeOccuranceArray): 256*exp(-3*distance/range)
approximated with uint32 arithmetic; every multiplication is truncated to 32
bits as the C++ uint32 accumulator is. -/
def arcticOut (range i : Nat) : Nat :=
  let x := 256 - 128 * i / range
  let o := x
  let o := o * x % 2 ^ 32
  let o := o * x % 2 ^ 32
  let o := o * x % 2 ^ 32
  let o := o / 2 ^ 16
  let o := o * x % 2 ^ 32
  let o := o * x % 2 ^ 32
  o / 2 ^ 24

/-- Tail of the occurrence array: entries from index i on, stopping at a zero
entry or at index 255 (the fuel counts the remaining loop iterations). -/
def arcticOccAux (range : Nat) : Nat → Nat → List Nat
  | 0, _ => []
  | fuel + 1, i =>
    let out := arcticOut range i
    if out = 0 then [] else out :: arcticOccAux range fuel (i + 1)

/-- The _arctic_tree_occurance array recalculated for a given range. -/
def arcticTreeOccurance (range : Nat) : List Nat :=
  if range = 0 then [255] else 255 :: arcticOccAux range 255 1

/-- GetSparseTreeRange(). -/
def GetSparseTreeRange (s : Settings) : Nat :=
  min 8 (4 * max 32 s.mapHeightLimit / 32)

/-- MaxTreeCount(tile): height-based and snow-line-based bound on the number
of trees of a perfect-placer tile. -/
def MaxTreeCount (s : Settings) (t : Tile) : Nat :=
  let z := t.tileZ
  let range := GetSparseTreeRange s
  let mzb0 := z * 4 / range + (if z * 4 % range ≠ 0 then 1 else 0)
  let mzb := max 1 mzb0 + (if s.landscape = Landscape.tropic then 1 else 0)
  let mslb : Nat :=
    if s.landscape = Landscape.arctic then
      let occ := arcticTreeOccurance s.treesAroundSnowLineRange
      match occ.get? (z - s.highestSnowLine) with
      | some v => 1 + v * 4 / 255
      | none => 0
    else 4
  min mzb mslb

/-- GetClearGround of a clear tile: snow when the snow bit is set, else the
raw ground. -/
def GetClearGround (raw : ClearGround) (snow : Bool) : ClearGround :=
  if snow then ClearGround.snow else raw

/-- CanPlantTreesOnTile(tile, allow_desert): clear ground without farms or
rocks, or a plantable coast tile; under the perfect placer in arctic climate
tiles too far above the snow line are excluded. -/
def CanPlantTreesOnTile (s : Settings) (t : Tile) (allowDesert : Bool) : Bool :=
  if s.treePlacer = TreePlacer.TP_PERFECT ∧ s.landscape = Landscape.arctic ∧
      t.tileZ > s.highestSnowLine + s.treesAroundSnowLineRange then
    false
  else
    match t.kind with
    | TileKind.water coast => !t.bridgeAbove && coast && !t.oneCornerRaised
    | TileKind.clear raw snow _ =>
        !t.bridgeAbove && decide (GetClearGround raw snow ≠ ClearGround.fields) &&
          decide (raw ≠ ClearGround.rocks) &&
          (allowDesert || decide (GetClearGround raw snow ≠ ClearGround.desert))
    | _ => false

/-- PlantTreesOnTile(tile, treetype, count, growth): make the tile a trees
tile preserving ground and density per the source's mapping; the stored
count field is the parameter plus one (the GetTreeCount convention). -/
def PlantTreesOnTile (t : Tile) (treetype count growth : Nat) : Tile :=
  let gd : TreeGround × Nat :=
    match t.kind with
    | TileKind.water _ => (TreeGround.shore, 3)
    | TileKind.clear raw snow d =>
        let g :=
          match GetClearGround raw snow with
          | ClearGround.grass => TreeGround.grass
          | ClearGround.rough => TreeGround.rough
          | ClearGround.snow =>
              if raw = ClearGround.rough then TreeGround.roughSnow else TreeGround.snowDesert
          | _ => TreeGround.snowDesert
        let dens := if GetClearGround raw snow ≠ ClearGround.rough then d else 3
        (g, dens)
    | _ => (TreeGround.grass, 3)
  { t with kind := TileKind.trees treetype (count + 1) growth gd.1 gd.2 }

/-- GetRandomTreeType(tile, seed): a climate-appropriate tree type, or none
for TREE_INVALID; in arctic climate with snow-line trees enabled it draws
RandomRange(256) from the synchronized stream when the normalised distance
is inside the occurrence array. -/
def GetRandomTreeType (s : Settings) (t : Tile) (seed : Nat) (rng : Nat) :
    Option Nat × Nat :=
  match s.landscape with
  | Landscape.temperate =>
      (some (seed * TREE_COUNT_TEMPERATE / 256 + TREE_TEMPERATE), rng)
  | Landscape.arctic =>
      if !s.treesAroundSnowLineEnabled then
        (some (seed * TREE_COUNT_SUB_ARCTIC / 256 + TREE_SUB_ARCTIC), rng)
      else
        let occ := arcticTreeOccurance s.treesAroundSnowLineRange
        let z : Int := (t.tileZ : Int)
        let h : Int :=
          if z > (s.highestSnowLine : Int) then z - (s.highestSnowLine : Int)
          else if z < (s.lowestSnowLine : Int) then z - (s.lowestSnowLine : Int)
          else 0
        let nd : Nat := if h < 0 then (-h).toNat else (h + 1).toNat
        let ar : Bool × Nat :=
          if hlt : nd < occ.length then
            let (r, rngA) := randomRange 256 rng
            (decide (r < occ.get ⟨nd, hlt⟩), rngA)
          else (false, rng)
        if h < 0 then
          (some (if ar.1 then seed * TREE_COUNT_SUB_ARCTIC / 256 + TREE_SUB_ARCTIC
                 else seed * TREE_COUNT_TEMPERATE / 256 + TREE_TEMPERATE), ar.2)
        else
          (if ar.1 then some (seed * TREE_COUNT_SUB_ARCTIC / 256 + TREE_SUB_ARCTIC)
           else none, ar.2)
  | Landscape.tropic =>
      match t.tropicZone with
      | TropicZone.normal =>
          (some (seed * TREE_COUNT_SUB_TROPICAL / 256 + TREE_SUB_TROPICAL), rng)
      | TropicZone.desert => (if seed > 12 then none else some TREE_CACTUS, rng)
      | TropicZone.rainforest =>
          (some (seed * TREE_COUNT_RAINFOREST / 256 + TREE_RAINFOREST), rng)
  | Landscape.toyland =>
      (some (seed * TREE_COUNT_TOYLAND / 256 + TREE_TOYLAND), rng)

/-- Per-tile decision of the CmdPlantTree loop body, in the source's order of
checks: a skip with continue, a skip through the default branch (which falls
through to the loop-end limit check), the tree-limit refusal, a failing
CMD_LANDSCAPE_CLEAR sub-command aborting the whole command, or one of the
three paid outcomes (grow an existing full tree, add a stem, plant on a
fresh tile whose landscape-clear cost and post-clear state are recorded). -/
inductive Decision where
  | skipC (m : Msg)
  | skipB (m : Msg)
  | limitReached
  | subFail (m : Msg)
  | grow
  | addStem
  | plantNew (subCost : Int) (cleared : Tile)
  deriving DecidableEq

/-- The shared MP_WATER-fallthrough/MP_CLEAR portion of the switch:
suitability and bridge test, tropic pickiness about the requested type, then
the landscape-clear sub-command for raw fields or rocks ground. -/
def classifyClearPath (s : Settings) (treeToPlant : Nat) (t : Tile) : Decision :=
  if !(CanPlantTreesOnTile s t false) || t.bridgeAbove then
    Decision.skipC Msg.siteUnsuitable
  else if decide (s.landscape = Landscape.tropic) &&
      decide (treeToPlant ≠ TREE_INVALID) &&
      ((decide (treeToPlant = TREE_CACTUS) && decide (t.tropicZone ≠ TropicZone.desert)) ||
       (IsInsideMM treeToPlant TREE_RAINFOREST TREE_CACTUS &&
         decide (t.tropicZone ≠ TropicZone.rainforest) && !s.gameModeEditor) ||
       (IsInsideMM treeToPlant TREE_SUB_TROPICAL TREE_TOYLAND &&
         decide (t.tropicZone ≠ TropicZone.normal))) then
    Decision.skipC Msg.wrongTerrainForTreeType
  else
    match t.kind with
    | TileKind.clear raw _ _ =>
        if raw = ClearGround.fields ∨ raw = ClearGround.rocks then
          match s.landscapeClear t with
          | (CmdResult.fail m, _) => Decision.subFail m
          | (CmdResult.ok c, t2) => Decision.plantNew c t2
        else Decision.plantNew 0 t
    | _ => Decision.plantNew 0 t

/-- Decision of the loop body before the tree-limit gate, exactly mirroring
the source's switch on the tile type. -/
def classifyPre (s : Settings) (treeToPlant : Nat) (t : Tile) : Decision :=
  match t.kind with
  | TileKind.trees ty cnt growth _ _ =>
      if s.treePlacer = TreePlacer.TP_PERFECT then
        if decide (cnt ≥ 4) ||
            (decide (ty ≠ TREE_CACTUS) && decide (cnt ≥ MaxTreeCount s t)) then
          if growth < 3 then Decision.grow else Decision.skipC Msg.treeAlreadyHere
        else Decision.addStem
      else
        if cnt = 4 then Decision.skipC Msg.treeAlreadyHere else Decision.addStem
  | TileKind.water coast =>
      if !(CanPlantTreesOnTile s t false) || !coast || t.oneCornerRaised then
        Decision.skipC Msg.cantBuildOnWater
      else classifyClearPath s treeToPlant t
  | TileKind.clear _ _ _ => classifyClearPath s treeToPlant t
  | _ => Decision.skipB Msg.siteUnsuitable

/-- Full decision including the tree-limit gate: every paid outcome and the
sub-command are behind the pre-decremented limit test of the source
(the check that decrements first and then compares against 1). -/
def classify (s : Settings) (treeToPlant : Nat) (limit : Int) (t : Tile) : Decision :=
  match classifyPre s treeToPlant t with
  | Decision.skipC m => Decision.skipC m
  | Decision.skipB m => Decision.skipB m
  | d => if limit - 1 < 1 then Decision.limitReached else d

/-- Resolved tree type of an executed fresh planting: the requested type, or
a random climate type with the arctic snow-line fallback of the source. -/
def ResolvePlantedTreeType (s : Settings) (treeToPlant : Nat) (t : Tile) (rng : Nat) :
    Nat × Nat :=
  if treeToPlant ≠ TREE_INVALID then (treeToPlant, rng)
  else
    let (r, rng1) := randomNext rng
    let (tt0, rng2) := GetRandomTreeType s t (GB r 24 8) rng1
    match tt0 with
    | some tt => (tt, rng2)
    | none =>
        if s.treesAroundSnowLineEnabled && decide (s.landscape = Landscape.arctic) then
          let (r2, rng3) := randomNext rng2
          if t.tileZ ≤ s.snowLineHeight then
            (GB r2 24 8 * TREE_COUNT_TEMPERATE / 256 + TREE_TEMPERATE, rng3)
          else
            (GB r2 24 8 * TREE_COUNT_SUB_ARCTIC / 256 + TREE_SUB_ARCTIC, rng3)
        else (TREE_CACTUS, rng2)

/-- Execute-phase mutation of a fresh planting: plant full grown trees in the
scenario editor, and mark a rainforest zone there when planting
rainforest-range trees. -/
def ExecPlantNew (s : Settings) (treeToPlant : Nat) (cleared : Tile) (rng : Nat) :
    Tile × Nat :=
  let (tt, rng2) := ResolvePlantedTreeType s treeToPlant cleared rng
  let t1 := PlantTreesOnTile cleared tt 0 (if s.gameModeEditor then 3 else 0)
  let t2 :=
    if s.gameModeEditor && IsInsideMM tt TREE_RAINFOREST TREE_CACTUS then
      { t1 with tropicZone := TropicZone.rainforest }
    else t1
  (t2, rng2)

/-- Execute-phase tile mutation for a paid decision; the test phase leaves
the tile and the random stream untouched. -/
def applyPlant (s : Settings) (treeToPlant : Nat) (exec : Bool) (t : Tile)
    (d : Decision) (rng : Nat) : Tile × Nat :=
  if !exec then (t, rng)
  else
    match d, t.kind with
    | Decision.grow, TileKind.trees ty cnt _ g de =>
        ({ t with kind := TileKind.trees ty cnt 3 g de }, rng)
    | Decision.addStem, TileKind.trees ty cnt gr g de =>
        ({ t with kind := TileKind.trees ty (cnt + 1) gr g de }, rng)
    | Decision.plantNew _ cleared, _ => ExecPlantNew s treeToPlant cleared rng
    | _, _ => (t, rng)

/-- Mutable accounting of the CmdPlantTree loop: the local tree limit
counter, the accumulated cost, the last failure message written, the number
of successful plantings, and the ordered trace of all failure messages
written (the trace records what the mutable msg variable was assigned, for
reasoning about which failure the command reports). -/
structure PlantAcc where
  limit : Int
  cost : Int
  msg : Msg
  planted : Nat
  trace : List Msg
  deriving DecidableEq

/-- Result of the loop: the error of an aborting sub-command if one failed,
the processed tile list, the random stream state and the final accounting. -/
structure LoopOut where
  earlyFail : Option Msg
  tiles : List Tile
  rng : Nat
  acc : PlantAcc
  deriving DecidableEq

/-- The TileArea loop of CmdPlantTree: visit tiles in order, classify each,
apply the execute-phase mutation for paid outcomes, and honour the source's
control flow (continue on skips, switch-break plus loop-end limit<0 test on
the other outcomes, early return on a failing sub-command). -/
def plantLoop (s : Settings) (treeToPlant : Nat) (exec : Bool) :
    List Tile → Nat → PlantAcc → LoopOut
  | [], rng, a => ⟨none, [], rng, a⟩
  | t :: ts, rng, a =>
    match classify s treeToPlant a.limit t with
    | Decision.skipC m =>
        let o := plantLoop s treeToPlant exec ts rng
          { a with msg := m, trace := a.trace ++ [m] }
        { o with tiles := t :: o.tiles }
    | Decision.skipB m =>
        let a2 := { a with msg := m, trace := a.trace ++ [m] }
        if a2.limit < 0 then ⟨none, t :: ts, rng, a2⟩
        else
          let o := plantLoop s treeToPlant exec ts rng a2
          { o with tiles := t :: o.tiles }
    | Decision.limitReached =>
        let a2 := { a with limit := a.limit - 1, msg := Msg.treePlantLimitReached, trace := a.trace ++ [Msg.treePlantLimitReached] }
        if a2.limit < 0 then ⟨none, t :: ts, rng, a2⟩
        else
          let o := plantLoop s treeToPlant exec ts rng a2
          { o with tiles := t :: o.tiles }
    | Decision.subFail m => ⟨some m, t :: ts, rng, a⟩
    | Decision.grow =>
        let a2 := { a with limit := a.limit - 1, cost := a.cost + 2 * s.priceBuildTrees, planted := a.planted + 1 }
        let tr := applyPlant s treeToPlant exec t Decision.grow rng
        if a2.limit < 0 then ⟨none, tr.1 :: ts, tr.2, a2⟩
        else
          let o := plantLoop s treeToPlant exec ts tr.2 a2
          { o with tiles := tr.1 :: o.tiles }
    | Decision.addStem =>
        let a2 := { a with limit := a.limit - 1, cost := a.cost + 2 * s.priceBuildTrees, planted := a.planted + 1 }
        let tr := applyPlant s treeToPlant exec t Decision.addStem rng
        if a2.limit < 0 then ⟨none, tr.1 :: ts, tr.2, a2⟩
        else
          let o := plantLoop s treeToPlant exec ts tr.2 a2
          { o with tiles := tr.1 :: o.tiles }
    | Decision.plantNew c cleared =>
        let a2 := { a with limit := a.limit - 1, cost := a.cost + c + s.priceBuildTrees, planted := a.planted + 1 }
        let tr := applyPlant s treeToPlant exec t (Decision.plantNew c cleared) rng
        if a2.limit < 0 then ⟨none, tr.1 :: ts, tr.2, a2⟩
        else
          let o := plantLoop s treeToPlant exec ts tr.2 a2
          { o with tiles := tr.1 :: o.tiles }

/-- Complete result of one CmdPlantTree invocation: the Cost/Result, the
area's tiles after the call, the random stream, the company's tree_limit
word, plus the loop accounting and early-failure marker for analysis. -/
structure PlantOut where
  res : CmdResult
  tiles : List Tile
  rng : Nat
  treeLimit : Option Nat
  acc : PlantAcc
  earlyFail : Option Msg
  deriving DecidableEq

/-- Tree limit available to the invocation: INT32_MAX without a company (or
in the scenario editor), else bits 16..31 of the company's tree_limit. -/
def EffectiveTreeLimit (s : Settings) (company : Option Nat) : Int :=
  match (if s.gameModeEditor then none else company) with
  | none => INT32_MAX
  | some tl => (GB tl 16 16 : Int)

/-- CmdPlantTree(tile, flags, p1, p2, text): validity checks on p2 and the
requested tree type, then the area loop; a zero accumulated cost reports the
last failure message, otherwise the accumulated cost is returned.  The
company's tree_limit loses one tree (1 shifted left 16) per planting, only
in the execute phase.  tiles is the drag area in iteration order; company is
the resolved Company::GetIfValid value as a tree_limit word. -/
def CmdPlantTree (s : Settings) (exec : Bool) (p1 p2 mapSize : Nat)
    (tiles : List Tile) (rng : Nat) (company : Option Nat) : PlantOut :=
  let a0 : PlantAcc := ⟨0, 0, Msg.invalid, 0, []⟩
  let treeToPlant := GB p1 0 8
  if p2 ≥ mapSize then ⟨CmdResult.fail Msg.invalid, tiles, rng, company, a0, none⟩
  else if decide (treeToPlant ≠ TREE_INVALID) &&
      !(IsInsideBS treeToPlant s.treeBase s.treeCountClimate) then
    ⟨CmdResult.fail Msg.invalid, tiles, rng, company, a0, none⟩
  else
    let c : Option Nat := if s.gameModeEditor then none else company
    let limit0 : Int := EffectiveTreeLimit s company
    let o := plantLoop s treeToPlant exec tiles rng ⟨limit0, 0, Msg.invalid, 0, []⟩
    let res :=
      match o.earlyFail with
      | some m => CmdResult.fail m
      | none => if o.acc.cost = 0 then CmdResult.fail o.acc.msg else CmdResult.ok o.acc.cost
    let tl2 :=
      match c with
      | none => company
      | some tl => some (if exec then tl - o.acc.planted * 2 ^ 16 else tl)
    ⟨res, o.tiles, o.rng, tl2, o.acc, o.earlyFail⟩

/-- GetTreeType of a tile, when it is a trees tile. -/
def GetTreeType (t : Tile) : Option Nat :=
  match t.kind with
  | TileKind.trees ty _ _ _ _ => some ty
  | _ => none

/-- GetTreeCount of a tile, when it is a trees tile. -/
def GetTreeCount (t : Tile) : Option Nat :=
  match t.kind with
  | TileKind.trees _ cnt _ _ _ => some cnt
  | _ => none

/-- GetTreeGrowth of a tile, when it is a trees tile. -/
def GetTreeGrowth (t : Tile) : Option Nat :=
  match t.kind with
  | TileKind.trees _ _ g _ _ => some g
  | _ => none

/-- GetTreeGround of a tile, when it is a trees tile. -/
def GetTreeGround (t : Tile) : Option TreeGround :=
  match t.kind with
  | TileKind.trees _ _ _ g _ => some g
  | _ => none

/-- GetTreeDensity of a tile, when it is a trees tile. -/
def GetTreeDensity (t : Tile) : Option Nat :=
  match t.kind with
  | TileKind.trees _ _ _ _ d => some d
  | _ => none

/-- SetTreeGroundDensity(tile, ground, density) on a trees tile. -/
def SetTreeGroundDensity (t : Tile) (g : TreeGround) (d : Nat) : Tile :=
  match t.kind with
  | TileKind.trees ty cnt gr _ _ => { t with kind := TileKind.trees ty cnt gr g d }
  | _ => t

/-- SetTreeGrowth(tile, g) on a trees tile. -/
def SetTreeGrowth (t : Tile) (g : Nat) : Tile :=
  match t.kind with
  | TileKind.trees ty cnt _ gd de => { t with kind := TileKind.trees ty cnt g gd de }
  | _ => t

/-- AddTreeGrowth(tile, 1) on a trees tile. -/
def AddTreeGrowth (t : Tile) (d : Nat) : Tile :=
  match t.kind with
  | TileKind.trees ty cnt g gd de => { t with kind := TileKind.trees ty cnt (g + d) gd de }
  | _ => t

/-- AddTreeCount(tile, d) on a trees tile (d may be negative). -/
def AddTreeCount (t : Tile) (d : Int) : Tile :=
  match t.kind with
  | TileKind.trees ty cnt g gd de =>
      { t with kind := TileKind.trees ty ((cnt : Int) + d).toNat g gd de }
  | _ => t

/-- MakeClear(tile, ground, density). -/
def MakeClearTile (t : Tile) (raw : ClearGround) (d : Nat) : Tile :=
  { t with kind := TileKind.clear raw false d }

/-- MakeSnow(tile, density) on a clear tile: set the snow cover. -/
def MakeSnowTile (t : Tile) (d : Nat) : Tile :=
  match t.kind with
  | TileKind.clear raw _ _ => { t with kind := TileKind.clear raw true d }
  | _ => t

/-- MakeShore(tile). -/
def MakeShoreTile (t : Tile) : Tile :=
  { t with kind := TileKind.water true }

/-- PlaceTree(tile, r): plant a random-type tree with count bits 22..23 and
growth clamped to at most 6 from bits 16..18 of the randomness word, then
rerandomize the ground from bit 28 unless it is snow or shore. -/
def PlaceTree (s : Settings) (t : Tile) (r : Nat) (rng : Nat) : Tile × Nat :=
  let (tt0, rng2) := GetRandomTreeType s t (GB r 24 8) rng
  match tt0 with
  | none => (t, rng2)
  | some tree =>
      let t1 := PlantTreesOnTile t tree (GB r 22 2) (min (GB r 16 3) 6)
      match GetTreeGround t1 with
      | some g =>
          if decide (g ≠ TreeGround.snowDesert) && decide (g ≠ TreeGround.roughSnow) &&
              decide (g ≠ TreeGround.shore) then
            (SetTreeGroundDensity t1
              (if GB r 28 1 = 1 then TreeGround.rough else TreeGround.grass) 3, rng2)
          else (t1, rng2)
      | none => (t1, rng2)

/-- One candidate step of PlaceTreeGroupAroundTile: add a stem and reset
growth on a trees tile below four stems, else plant a fresh fully grown
group tree where planting is allowed (desert allowed for cacti only). -/
def PlaceTreeGroupStep (s : Settings) (treetype : Nat) (t : Tile) : Tile × Bool :=
  match t.kind with
  | TileKind.trees ty cnt _ g de =>
      if cnt < 4 then ({ t with kind := TileKind.trees ty (cnt + 1) 0 g de }, true)
      else if CanPlantTreesOnTile s t (decide (treetype = TREE_CACTUS)) then
        (PlantTreesOnTile t treetype 0 3, true)
      else (t, false)
  | _ =>
      if CanPlantTreesOnTile s t (decide (treetype = TREE_CACTUS)) then
        (PlantTreesOnTile t treetype 0 3, true)
      else (t, false)

/-- PlaceTreeGroupAroundTile over its candidate tiles: the quasi-normal
coordinate draws of the interactive stream select one candidate per
iteration; the candidate list stands for the tiles so selected, in draw
order.  Returns the mutated candidates and the number planted. -/
def PlaceTreeGroupAroundTile (s : Settings) (treetype : Nat) :
    List Tile → Nat → List Tile × Nat
  | [], planted => ([], planted)
  | t :: ts, planted =>
      let st := PlaceTreeGroupStep s treetype t
      let rest := PlaceTreeGroupAroundTile s treetype ts
        (planted + if st.2 then 1 else 0)
      (st.1 :: rest.1, rest.2)

/-- TileLoopTreesDesert(tile): in the desert zone force snow/desert ground at
full density (the rainforest branch only plays ambient sound). -/
def TileLoopTreesDesert (t : Tile) : Tile :=
  match t.tropicZone with
  | TropicZone.desert =>
      if GetTreeGround t ≠ some TreeGround.snowDesert then
        SetTreeGroundDensity t TreeGround.snowDesert 3
      else t
  | _ => t

/-- TileLoopTreesAlps(tile): snow cover bookkeeping around the snow line. -/
def TileLoopTreesAlps (s : Settings) (t : Tile) : Tile :=
  let k : Int :=
    if (t.tileHeight : Int) < (s.snowLine : Int) - 1 then -1
    else (t.tileZ : Int) - (s.snowLine : Int) + 1
  if k < 0 then
    match GetTreeGround t with
    | some TreeGround.snowDesert => SetTreeGroundDensity t TreeGround.grass 3
    | some TreeGround.roughSnow => SetTreeGroundDensity t TreeGround.rough 3
    | _ => t
  else
    let density := min k.toNat 3
    match GetTreeGround t, GetTreeDensity t with
    | some g, some de =>
        if decide (g ≠ TreeGround.snowDesert) && decide (g ≠ TreeGround.roughSnow) then
          SetTreeGroundDensity t
            (if g = TreeGround.rough then TreeGround.roughSnow else TreeGround.snowDesert)
            density
        else if de ≠ density then SetTreeGroundDensity t g density
        else t
    | _, _ => t

/-- CanPlantExtraTrees(tile): the in-game spread setting, rainforest zones
using the rainforest-or-all rule. -/
def CanPlantExtraTrees (s : Settings) (t : Tile) : Bool :=
  if decide (s.landscape = Landscape.tropic) &&
      decide (t.tropicZone = TropicZone.rainforest) then
    decide (s.extraTreePlacement = ExtraTreePlacement.ETP_SPREAD_ALL) ||
      decide (s.extraTreePlacement = ExtraTreePlacement.ETP_SPREAD_RAINFOREST)
  else decide (s.extraTreePlacement = ExtraTreePlacement.ETP_SPREAD_ALL)

/-- PlantTreeAtSameHeight(tile) with its single FindTreePositionAtSameHeight
step: one randomness draw yields an offset; cand stands for the tile at that
offset (kind void when the wrapped addition leaves the map).  The candidate
is planted with the focal tile's tree type when all the source's checks
pass. -/
def PlantTreeAtSameHeight (s : Settings) (t cand : Tile) (rng : Nat) : Tile × Nat :=
  let (r, rng2) := randomNext rng
  let x : Int := (GB r 0 5 : Int) - 16
  let y : Int := (GB r 8 5 : Int) - 16
  let ok := decide (cand.kind ≠ TileKind.void) &&
    decide (x.natAbs + y.natAbs ≤ 16) &&
    CanPlantTreesOnTile s cand true &&
    decide (max cand.tileZ t.tileZ - min cand.tileZ t.tileZ ≤ 2)
  if ok then
    match GetTreeType t with
    | some ty => (PlantTreesOnTile cand ty 0 0, rng2)
    | none => (cand, rng2)
  else (cand, rng2)

/-- The add-a-neighbouring-tree arm of the growth switch (case 2): perfect
placer spreads at the same height (cacti only half the time), otherwise a
random direction draw selects the adjacent candidate, planted when the
ground is suitable and not freshly cleared grass. -/
def TreeSpreadCase (s : Settings) (t nb : Tile) (rng : Nat) : Tile × Tile × Nat :=
  if !(CanPlantExtraTrees s t) then (t, nb, rng)
  else if decide (s.treePlacer = TreePlacer.TP_PERFECT) &&
      ((decide (s.landscape ≠ Landscape.tropic) &&
          decide (t.tileZ ≤ GetSparseTreeRange s)) ||
        decide (GetTreeType t = some TREE_CACTUS) ||
        (decide (s.landscape = Landscape.arctic) &&
          decide (t.tileZ ≥ s.highestSnowLine + s.treesAroundSnowLineRange / 3))) then
    if GetTreeType t ≠ some TREE_CACTUS then
      let pr := PlantTreeAtSameHeight s t nb rng
      (t, pr.1, pr.2)
    else
      let (d, rng2) := randomRange 100 rng
      if d < 50 then
        let pr := PlantTreeAtSameHeight s t nb rng2
        (t, pr.1, pr.2)
      else (t, nb, rng2)
  else
    let rng2 := (randomNext rng).2
    if !(CanPlantTreesOnTile s nb false) then (t, nb, rng2)
    else if (match nb.kind with
             | TileKind.clear raw snow de =>
                 decide (GetClearGround raw snow = ClearGround.grass) && decide (de ≠ 3)
             | _ => false) then (t, nb, rng2)
    else
      match GetTreeType t with
      | some ty => (t, PlantTreesOnTile nb ty 0 0, rng2)
      | none => (t, nb, rng2)

/-- The growth-stage switch of TileLoop_Trees, acting on the focal tile and
possibly planting on the neighbouring candidate tile. -/
def TreeGrowthSwitch (s : Settings) (t nb : Tile) (rng : Nat) : Tile × Tile × Nat :=
  match GetTreeGrowth t with
  | some 3 =>
      if decide (s.landscape = Landscape.tropic) &&
          decide (GetTreeType t ≠ some TREE_CACTUS) &&
          decide (t.tropicZone = TropicZone.desert) then
        (AddTreeGrowth t 1, nb, rng)
      else
        let (r, rng2) := randomNext rng
        match GB r 0 3 with
        | 0 => (AddTreeGrowth t 1, nb, rng2)
        | 1 =>
            let canAdd :=
              if s.treePlacer = TreePlacer.TP_PERFECT then
                (match GetTreeCount t with | some cnt => decide (cnt < 4) | none => false) &&
                  (decide (GetTreeType t = some TREE_CACTUS) ||
                    (match GetTreeCount t with
                     | some cnt => decide (cnt < MaxTreeCount s t)
                     | none => false))
              else
                (match GetTreeCount t with | some cnt => decide (cnt < 4) | none => false) &&
                  CanPlantExtraTrees s t
            if canAdd then (SetTreeGrowth (AddTreeCount t 1) 0, nb, rng2)
            else TreeSpreadCase s t nb rng2
        | 2 => TreeSpreadCase s t nb rng2
        | _ => (t, nb, rng2)
  | some 6 =>
      if !(CanPlantExtraTrees s t) then (SetTreeGrowth t 0, nb, rng)
      else
        match GetTreeCount t with
        | some cnt =>
            if cnt > 1 then (SetTreeGrowth (AddTreeCount t (-1)) 3, nb, rng)
            else
              match GetTreeGround t, GetTreeDensity t with
              | some TreeGround.shore, _ => (MakeShoreTile t, nb, rng)
              | some TreeGround.grass, some de => (MakeClearTile t ClearGround.grass de, nb, rng)
              | some TreeGround.rough, _ => (MakeClearTile t ClearGround.rough 3, nb, rng)
              | some TreeGround.roughSnow, some de =>
                  (MakeSnowTile (MakeClearTile t ClearGround.rough 3) de, nb, rng)
              | some TreeGround.snowDesert, some de =>
                  if s.landscape = Landscape.tropic then
                    (MakeClearTile t ClearGround.desert de, nb, rng)
                  else (MakeSnowTile (MakeClearTile t ClearGround.grass 3) de, nb, rng)
              | _, _ => (t, nb, rng)
        | none => (t, nb, rng)
  | some _ => (AddTreeGrowth t 1, nb, rng)
  | none => (t, nb, rng)

/-- TileLoop_Trees(tile): climate ground bookkeeping, grass growth every 8th
processing, then the growth machinery every 16th processing subject to the
growth-rate slowdown draw.  cycle is (tile mod 31) + (tick counter shifted
right 8); nb is the neighbouring candidate a spreading branch may plant on.
The climate ground phase of the tile loop: the shore branch's
TileLoop_Water is modelled from the spec as leaving the tile in place
(water code not under src/, and its effect never touches the packed
tree state). -/
def TileLoopTreesGround (s : Settings) (t : Tile) : Tile :=
  if GetTreeGround t = some TreeGround.shore then t
  else
    match s.landscape with
    | Landscape.tropic => TileLoopTreesDesert t
    | Landscape.arctic => TileLoopTreesAlps s t
    | _ => t

/-- The every-8th-processing grass density growth step of TileLoop_Trees. -/
def TileLoopTreesGrass (cycle : Nat) (t1 : Tile) : Tile :=
  if cycle % 8 = 7 && GetTreeGround t1 = some TreeGround.grass then
    match GetTreeDensity t1 with
    | some de => if de < 3 then SetTreeGroundDensity t1 TreeGround.grass (de + 1) else t1
    | none => t1
  else t1

/-- TileLoop_Trees(tile): climate ground bookkeeping, grass growth every 8th
processing, then the growth machinery every 16th processing subject to the
growth-rate slowdown draw. -/
def TileLoop_Trees (s : Settings) (cycle : Nat) (t nb : Tile) (rng : Nat) :
    Tile × Tile × Nat :=
  let t2 := TileLoopTreesGrass cycle (TileLoopTreesGround s t)
  if cycle % 16 < 15 then (t2, nb, rng)
  else if s.extraTreePlacement = ExtraTreePlacement.ETP_NO_GROWTH_NO_SPREAD then (t2, nb, rng)
  else if s.treeGrowthRate > 0 then
    if s.treeGrowthRate = 4 then (t2, nb, rng)
    else
      let slow := [13107, 3276, 546, 0].getD (s.treeGrowthRate - 1) 0
      let (r, rng2) := randomNext rng
      if GB r 0 16 ≥ slow then (t2, nb, rng2)
      else TreeGrowthSwitch s t2 nb rng2
  else TreeGrowthSwitch s t2 nb rng

/-- Two-phase dispatch of a plant-tree descriptor: run the handler in test
mode and, only if that succeeded, re-run it with DC_EXEC on the unchanged
world and random stream. -/
def DispatchPlantTree (s : Settings) (p1 p2 mapSize : Nat) (tiles : List Tile)
    (rng : Nat) (company : Option Nat) : CmdResult × List Tile × Nat × Option Nat :=
  let test := CmdPlantTree s false p1 p2 mapSize tiles rng company
  match test.res with
  | CmdResult.fail m => (CmdResult.fail m, tiles, rng, company)
  | CmdResult.ok _ =>
      let e := CmdPlantTree s true p1 p2 mapSize tiles rng company
      (e.res, e.tiles, e.rng, e.treeLimit)

/-- A submitted command descriptor (the two opaque parameter words). -/
structure Desc where
  p1 : Nat
  p2 : Nat
  deriving DecidableEq

/-- Engine run over a command descriptor sequence: dispatch each descriptor
in order through the two-phase executor, collecting the Cost/Result
sequence and threading world, synchronized random stream and quota. -/
def RunCommandSeq (s : Settings) (mapSize : Nat) :
    List Desc → List Tile → Nat → Option Nat →
      List CmdResult × List Tile × Nat × Option Nat
  | [], w, rng, c => ([], w, rng, c)
  | d :: ds, w, rng, c =>
      let st := DispatchPlantTree s d.p1 d.p2 mapSize w rng c
      let rest := RunCommandSeq s mapSize ds st.2.1 st.2.2.1 st.2.2.2
      (st.1 :: rest.1, rest.2.1, rest.2.2.1, rest.2.2.2)

/-- Command flags of the static trait table (command_type.h names used by
the trait declarations under src/). -/
inductive CommandFlag where
  | CMD_ALL_TILES
  | CMD_AUTO
  | CMD_NO_TEST
  | CMD_DEITY
  | CMD_STR_CTRL
  deriving DecidableEq

/-- Command category of a trait entry. -/
inductive CommandCategory where
  | CMDT_LANDSCAPE_CONSTRUCTION
  | CMDT_OTHER_MANAGEMENT
  deriving DecidableEq

/-- Command identifiers declared by the trait headers under src/. -/
inductive CommandId where
  | CMD_TERRAFORM_LAND
  | CMD_LEVEL_LAND
  | CMD_CREATE_STORY_PAGE
  | CMD_CREATE_STORY_PAGE_ELEMENT
  | CMD_UPDATE_STORY_PAGE_ELEMENT
  | CMD_SET_STORY_PAGE_TITLE
  | CMD_SET_STORY_PAGE_DATE
  | CMD_SHOW_STORY_PAGE
  | CMD_REMOVE_STORY_PAGE
  | CMD_REMOVE_STORY_PAGE_ELEMENT
  | CMD_STORY_PAGE_BUTTON
  deriving DecidableEq

/-- Static trait of a command: flags and category. -/
structure CommandTraits where
  flags : List CommandFlag
  category : CommandCategory
  deriving DecidableEq

/-- The DEF_CMD_TRAIT table of terraform_cmd.h and story_cmd.h. -/
def GetCommandTraits : CommandId → CommandTraits
  | CommandId.CMD_TERRAFORM_LAND =>
      ⟨[CommandFlag.CMD_ALL_TILES, CommandFlag.CMD_AUTO],
        CommandCategory.CMDT_LANDSCAPE_CONSTRUCTION⟩
  | CommandId.CMD_LEVEL_LAND =>
      ⟨[CommandFlag.CMD_ALL_TILES, CommandFlag.CMD_AUTO, CommandFlag.CMD_NO_TEST],
        CommandCategory.CMDT_LANDSCAPE_CONSTRUCTION⟩
  | CommandId.CMD_CREATE_STORY_PAGE =>
      ⟨[CommandFlag.CMD_DEITY, CommandFlag.CMD_STR_CTRL],
        CommandCategory.CMDT_OTHER_MANAGEMENT⟩
  | CommandId.CMD_CREATE_STORY_PAGE_ELEMENT =>
      ⟨[CommandFlag.CMD_DEITY, CommandFlag.CMD_STR_CTRL],
        CommandCategory.CMDT_OTHER_MANAGEMENT⟩
  | CommandId.CMD_UPDATE_STORY_PAGE_ELEMENT =>
      ⟨[CommandFlag.CMD_DEITY, CommandFlag.CMD_STR_CTRL],
        CommandCategory.CMDT_OTHER_MANAGEMENT⟩
  | CommandId.CMD_SET_STORY_PAGE_TITLE =>
      ⟨[CommandFlag.CMD_DEITY, CommandFlag.CMD_STR_CTRL],
        CommandCategory.CMDT_OTHER_MANAGEMENT⟩
  | CommandId.CMD_SET_STORY_PAGE_DATE =>
      ⟨[CommandFlag.CMD_DEITY], CommandCategory.CMDT_OTHER_MANAGEMENT⟩
  | CommandId.CMD_SHOW_STORY_PAGE =>
      ⟨[CommandFlag.CMD_DEITY], CommandCategory.CMDT_OTHER_MANAGEMENT⟩
  | CommandId.CMD_REMOVE_STORY_PAGE =>
      ⟨[CommandFlag.CMD_DEITY], CommandCategory.CMDT_OTHER_MANAGEMENT⟩
  | CommandId.CMD_REMOVE_STORY_PAGE_ELEMENT =>
      ⟨[CommandFlag.CMD_DEITY], CommandCategory.CMDT_OTHER_MANAGEMENT⟩
  | CommandId.CMD_STORY_PAGE_BUTTON =>
      ⟨[CommandFlag.CMD_DEITY], CommandCategory.CMDT_OTHER_MANAGEMENT⟩

/-- A paid (successful-planting) decision. -/
def DecisionPlants : Decision → Bool
  | Decision.grow => true
  | Decision.addStem => true
  | Decision.plantNew _ _ => true
  | _ => false

/-- Individual feasibility of a tile: planting on it alone succeeds when the
quota does not interfere. -/
def tileFeasible (s : Settings) (treeToPlant : Nat) (t : Tile) : Bool :=
  DecisionPlants (classifyPre s treeToPlant t)

/-- Cost the loop charges for a tile, zero for skipped ones. -/
def tileCost (s : Settings) (treeToPlant : Nat) (t : Tile) : Int :=
  match classifyPre s treeToPlant t with
  | Decision.grow => 2 * s.priceBuildTrees
  | Decision.addStem => 2 * s.priceBuildTrees
  | Decision.plantNew c _ => c + s.priceBuildTrees
  | _ => 0

/-- Number of individually feasible tiles of a batch. -/
def countFeasible (s : Settings) (treeToPlant : Nat) (ts : List Tile) : Nat :=
  ts.countP (fun t => tileFeasible s treeToPlant t)

/-- Sum of the feasible tiles' costs of a batch. -/
def sumFeasibleCost (s : Settings) (treeToPlant : Nat) (ts : List Tile) : Int :=
  (ts.map (tileCost s treeToPlant)).sum

/-- Packed-state bound of a trees tile: at most four stems, growth stage at
most six (trivially satisfied by non-tree tiles). -/
def TreeBoundsOK (t : Tile) : Bool :=
  match t.kind with
  | TileKind.trees _ cnt growth _ _ => decide (cnt ≤ 4) && decide (growth ≤ 6)
  | _ => true

/-- State transformer of one test-phase invocation, for iterating. -/
def TestInvocation (s : Settings) (p1 p2 mapSize : Nat) :
    List Tile × Nat × Option Nat → List Tile × Nat × Option Nat :=
  fun w =>
    let o := CmdPlantTree s false p1 p2 mapSize w.1 w.2.1 w.2.2
    (o.tiles, o.rng, o.treeLimit)

/-- Temperate baseline configuration used by the concrete instances. -/
def sBase : Settings :=
  { treePlacer := TreePlacer.TP_ORIGINAL
    landscape := Landscape.temperate
    gameModeEditor := false
    treesAroundSnowLineEnabled := false
    treesAroundSnowLineRange := 8
    snowLineHeight := 10
    mapHeightLimit := 64
    highestSnowLine := 10
    lowestSnowLine := 8
    snowLine := 10
    priceBuildTrees := 6
    treeBase := 0
    treeCountClimate := 12
    extraTreePlacement := ExtraTreePlacement.ETP_SPREAD_ALL
    treeGrowthRate := 0
    landscapeClear := fun t => (CmdResult.ok 0, t) }

/-- Baseline with the perfect tree placer. -/
def sPerfect : Settings := { sBase with treePlacer := TreePlacer.TP_PERFECT }

/-- Baseline whose landscape-clear sub-command fails. -/
def sSubFail : Settings :=
  { sBase with landscapeClear := fun t => (CmdResult.fail (Msg.subError 7), t) }

/-- A plantable grass tile. -/
def grassTile : Tile :=
  ⟨TileKind.clear ClearGround.grass false 3, TropicZone.normal, false, 1, 1, false⟩

/-- An unsuitable tile (house/industry/road, the switch's default case). -/
def otherTile : Tile :=
  ⟨TileKind.other, TropicZone.normal, false, 1, 1, false⟩

/-- A non-coast water tile. -/
def badWaterTile : Tile :=
  ⟨TileKind.water false, TropicZone.normal, false, 0, 0, false⟩

/-- A trees tile holding the maximum four stems at growth stage 2. -/
def fullTreeTile : Tile :=
  ⟨TileKind.trees 0 4 2 TreeGround.grass 3, TropicZone.normal, false, 4, 4, false⟩

/-- A trees tile with one stem, below every stem bound. -/
def addTreeTile : Tile :=
  ⟨TileKind.trees 0 1 0 TreeGround.grass 3, TropicZone.normal, false, 4, 4, false⟩

/-- A snow-covered fields tile: the only clear state that passes
CanPlantTreesOnTile yet still has raw fields ground, so planting on it runs
the CMD_LANDSCAPE_CLEAR sub-command. -/
def snowFieldsTile : Tile :=
  ⟨TileKind.clear ClearGround.fields true 3, TropicZone.normal, false, 1, 1, false⟩

example : (CmdPlantTree sBase true 0 0 1 [grassTile] 0 none).res = CmdResult.ok 6 := by decide
example : (CmdPlantTree sBase false 0 0 1 [grassTile] 0 none).res = CmdResult.ok 6 := by decide
example : (CmdPlantTree sBase true 0 0 1 [grassTile] 0 none).tiles =
    [⟨TileKind.trees 0 1 0 TreeGround.grass 3, TropicZone.normal, false, 1, 1, false⟩] := by decide
example : (CmdPlantTree sBase true 0 0 1 [grassTile, grassTile, otherTile] 0 (some 131072)).res =
    CmdResult.ok 6 := by decide
example : (CmdPlantTree sBase true 0 0 1 [otherTile, badWaterTile] 0 none).res =
    CmdResult.fail Msg.cantBuildOnWater := by decide
example : (CmdPlantTree sPerfect true 0 0 1 [fullTreeTile] 0 none).res = CmdResult.ok 12 := by decide
example : (CmdPlantTree sPerfect true 0 0 1 [addTreeTile] 0 none).res = CmdResult.ok 12 := by decide
example : (CmdPlantTree sPerfect true 0 0 1 [fullTreeTile] 0 none).tiles =
    [⟨TileKind.trees 0 4 3 TreeGround.grass 3, TropicZone.normal, false, 4, 4, false⟩] := by decide
example : (CmdPlantTree sSubFail true 0 0 1 [snowFieldsTile] 0 none).res =
    CmdResult.fail (Msg.subError 7) := by decide
example : (CmdPlantTree sBase true 0 0 1 [grassTile] 0 (some 65536)).res =
    CmdResult.fail Msg.treePlantLimitReached := by decide
example : (CmdPlantTree sBase true 0 0 1 [grassTile] 0 (some 131072)).treeLimit =
    some 65536 := by decide

theorem plantLoop_acc_indep (s : Settings) (tp : Nat) (e1 e2 : Bool) (ts : List Tile)
    (r1 r2 : Nat) (a : PlantAcc) :
    (plantLoop s tp e1 ts r1 a).earlyFail = (plantLoop s tp e2 ts r2 a).earlyFail ∧
    (plantLoop s tp e1 ts r1 a).acc = (plantLoop s tp e2 ts r2 a).acc := by
  induction ts generalizing r1 r2 a with
  | nil => exact ⟨rfl, rfl⟩
  | cons t ts ih =>
    simp only [plantLoop]
    cases h : classify s tp a.limit t with
    | skipC m => exact ih r1 r2 _
    | skipB m =>
        by_cases hl : (a.limit < 0)
        · simp [hl]
        · simp only [hl, if_false]
          exact ih r1 r2 _
    | limitReached =>
        by_cases hl : (a.limit - 1 < 0)
        · simp [hl]
        · simp only [hl, if_false]
          exact ih r1 r2 _
    | subFail m => exact ⟨rfl, rfl⟩
    | grow =>
        by_cases hl : (a.limit - 1 < 0)
        · simp [hl]
        · simp only [hl, if_false]
          exact ih _ _ _
    | addStem =>
        by_cases hl : (a.limit - 1 < 0)
        · simp [hl]
        · simp only [hl, if_false]
          exact ih _ _ _
    | plantNew c cleared =>
        by_cases hl : (a.limit - 1 < 0)
        · simp [hl]
        · simp only [hl, if_false]
          exact ih _ _ _

theorem plantLoop_test_noop (s : Settings) (tp : Nat) (ts : List Tile)
    (rng : Nat) (a : PlantAcc) :
    (plantLoop s tp false ts rng a).tiles = ts ∧
    (plantLoop s tp false ts rng a).rng = rng := by
  induction ts generalizing rng a with
  | nil => exact ⟨rfl, rfl⟩
  | cons t ts ih =>
    simp only [plantLoop]
    cases h : classify s tp a.limit t with
    | skipC m => simp [applyPlant, ih]
    | skipB m =>
        by_cases hl : (a.limit < 0)
        · simp [hl]
        · simp [hl, ih]
    | limitReached =>
        by_cases hl : (a.limit - 1 < 0)
        · simp [hl]
        · simp [hl, ih]
    | subFail m => exact ⟨rfl, rfl⟩
    | grow =>
        by_cases hl : (a.limit - 1 < 0)
        · simp [hl, applyPlant]
        · simp [hl, applyPlant, ih]
    | addStem =>
        by_cases hl : (a.limit - 1 < 0)
        · simp [hl, applyPlant]
        · simp [hl, applyPlant, ih]
    | plantNew c cleared =>
        by_cases hl : (a.limit - 1 < 0)
        · simp [hl, applyPlant]
        · simp [hl, applyPlant, ih]

/-- C1: Test/Execute equivalence.  For every command descriptor (tile area,
tree type, parameters) and every world state, running CmdPlantTree in test
mode (without DC_EXEC) and in execute mode (with DC_EXEC) on the unchanged
world and random stream yields the same Cost/Result. -/
theorem CmdPlantTree_test_exec_equiv (s : Settings) (p1 p2 mapSize : Nat)
    (tiles : List Tile) (rng : Nat) (company : Option Nat) :
    (CmdPlantTree s true p1 p2 mapSize tiles rng company).res =
      (CmdPlantTree s false p1 p2 mapSize tiles rng company).res := by
  have h := plantLoop_acc_indep s (GB p1 0 8) true false tiles rng rng
    ⟨EffectiveTreeLimit s company, 0, Msg.invalid, 0, []⟩
  simp only [CmdPlantTree]
  split
  · rfl
  · split
    · rfl
    · simp only [h.1, h.2]

/-- C4: Quota monotonicity / frame.  A test-phase CmdPlantTree leaves the
world, the random stream and the company's committed tree quota unchanged
(so any number of repeated test invocations is a no-op), while an
execute-phase invocation decrements the quota word by one tree (1 shifted
left 16) per planted tree, and the quota is only ever touched there. -/
theorem CmdPlantTree_quota_frame (s : Settings) (p1 p2 mapSize : Nat)
    (tiles : List Tile) (rng : Nat) (company : Option Nat) :
    (CmdPlantTree s false p1 p2 mapSize tiles rng company).tiles = tiles ∧
    (CmdPlantTree s false p1 p2 mapSize tiles rng company).rng = rng ∧
    (CmdPlantTree s false p1 p2 mapSize tiles rng company).treeLimit = company ∧
    (∀ n : Nat,
      (TestInvocation s p1 p2 mapSize)^[n] (tiles, rng, company) = (tiles, rng, company)) ∧
    (CmdPlantTree s true p1 p2 mapSize tiles rng company).treeLimit =
      (if s.gameModeEditor then company
       else company.map
         (fun tl => tl - (CmdPlantTree s true p1 p2 mapSize tiles rng company).acc.planted * 2 ^ 16))
    := by
  have hnoop : ∀ (w : List Tile) (r : Nat) (c : Option Nat),
      (CmdPlantTree s false p1 p2 mapSize w r c).tiles = w ∧
      (CmdPlantTree s false p1 p2 mapSize w r c).rng = r ∧
      (CmdPlantTree s false p1 p2 mapSize w r c).treeLimit = c := by
    intro w r c
    have h := plantLoop_test_noop s (GB p1 0 8) w r
      ⟨EffectiveTreeLimit s c, 0, Msg.invalid, 0, []⟩
    simp only [CmdPlantTree]
    split
    · exact ⟨rfl, rfl, rfl⟩
    · split
      · exact ⟨rfl, rfl, rfl⟩
      · refine ⟨h.1, h.2, ?_⟩
        by_cases he : s.gameModeEditor
        · simp [he]
        · cases c <;> simp [he]
  obtain ⟨h1, h2, h3⟩ := hnoop tiles rng company
  refine ⟨h1, h2, h3, ?_, ?_⟩
  · intro n
    apply Function.iterate_fixed
    simp only [TestInvocation]
    obtain ⟨a1, a2, a3⟩ := hnoop tiles rng company
    simp [a1, a2, a3]
  · simp only [CmdPlantTree]
    split
    · by_cases he : s.gameModeEditor
      · simp [he]
      · cases company <;> simp [he]
    · split
      · by_cases he : s.gameModeEditor
        · simp [he]
        · cases company <;> simp [he]
      · by_cases he : s.gameModeEditor
        · simp [he]
        · cases company <;> simp [he]

/-- C5: Determinism.  Two engine runs over the same initial tile store, the
same synchronized random seed and the same command descriptor sequence
produce identical Cost/Result sequences, identical final tile stores,
identical random streams and identical quotas: the engine is a pure
function of those inputs (it consults nothing else). -/
theorem RunCommandSeq_deterministic (s : Settings) (mapSize : Nat)
    (ds1 ds2 : List Desc) (w1 w2 : List Tile) (r1 r2 : Nat) (c1 c2 : Option Nat)
    (hd : ds1 = ds2) (hw : w1 = w2) (hr : r1 = r2) (hc : c1 = c2) :
    RunCommandSeq s mapSize ds1 w1 r1 c1 = RunCommandSeq s mapSize ds2 w2 r2 c2 := by
  subst hd; subst hw; subst hr; subst hc; rfl

theorem RunCommandSeq_deterministic_witness :
    RunCommandSeq sBase 1 [⟨0, 0⟩] [grassTile] 0 none =
      RunCommandSeq sBase 1 [⟨0, 0⟩] [grassTile] 0 none :=
  RunCommandSeq_deterministic sBase 1 [⟨0, 0⟩] [⟨0, 0⟩] [grassTile] [grassTile]
    0 0 none none rfl rfl rfl rfl

/-- C8: No-retest trait.  In the static trait table, CMD_LEVEL_LAND carries
the CMD_NO_TEST flag (its comment: a test run might clear tiles multiple
times, in execution that happens once) while CMD_TERRAFORM_LAND does not,
so the plain terraform command is tested before execution. -/
theorem levelLand_no_test_trait :
    CommandFlag.CMD_NO_TEST ∈ (GetCommandTraits CommandId.CMD_LEVEL_LAND).flags ∧
    CommandFlag.CMD_NO_TEST ∉ (GetCommandTraits CommandId.CMD_TERRAFORM_LAND).flags := by
  decide

/-- A decision that sits behind the tree-limit gate (paid outcomes and the
sub-command). -/
def DecisionGated : Decision → Bool
  | Decision.skipC _ => false
  | Decision.skipB _ => false
  | Decision.limitReached => false
  | _ => true

theorem classifyClearPath_ne_limitReached (s : Settings) (tp : Nat) (t : Tile) :
    classifyClearPath s tp t ≠ Decision.limitReached := by
  unfold classifyClearPath
  (repeat' split) <;> simp

theorem classifyPre_ne_limitReached (s : Settings) (tp : Nat) (t : Tile) :
    classifyPre s tp t ≠ Decision.limitReached := by
  unfold classifyPre
  split
  · (repeat' split) <;> simp
  · split
    · simp
    · exact classifyClearPath_ne_limitReached s tp t
  · exact classifyClearPath_ne_limitReached s tp t
  · simp

theorem classify_gated_two_le (s : Settings) (tp : Nat) (L : Int) (t : Tile)
    (h : DecisionGated (classify s tp L t) = true) : 2 ≤ L := by
  by_contra hc
  have hg : L - 1 < 1 := by omega
  rcases hp : classifyPre s tp t
  case limitReached => exact ((classifyPre_ne_limitReached s tp t) hp).elim
  all_goals simp [classify, hp, hg, DecisionGated] at h

theorem classify_eq_pre (s : Settings) (tp : Nat) (L : Int) (t : Tile) (h : 2 ≤ L) :
    classify s tp L t = classifyPre s tp t := by
  have hg : ¬ (L - 1 < 1) := by omega
  rcases hp : classifyPre s tp t
  case limitReached => exact ((classifyPre_ne_limitReached s tp t) hp).elim
  all_goals simp [classify, hp, hg]

theorem classify_low_of_gated (s : Settings) (tp : Nat) (L : Int) (t : Tile)
    (hL : L ≤ 1) (h : DecisionGated (classifyPre s tp t) = true) :
    classify s tp L t = Decision.limitReached := by
  have hg : L - 1 < 1 := by omega
  rcases hp : classifyPre s tp t
  case limitReached => exact ((classifyPre_ne_limitReached s tp t) hp).elim
  all_goals
    (try rw [hp] at h)
    (try simp [DecisionGated] at h)
    (try simp [classify, hp, hg])

theorem classify_skip_cases (s : Settings) (tp : Nat) (L : Int) (t : Tile)
    (h : DecisionGated (classifyPre s tp t) = false) :
    classify s tp L t = classifyPre s tp t := by
  rcases hp : classifyPre s tp t
  case limitReached => exact ((classifyPre_ne_limitReached s tp t) hp).elim
  all_goals
    (try rw [hp] at h)
    (try simp [DecisionGated] at h)
    (try simp [classify, hp])

theorem DecisionPlants_gated (d : Decision) (h : DecisionPlants d = true) :
    DecisionGated d = true := by
  cases d <;> simp [DecisionPlants, DecisionGated] at h ⊢

theorem plantLoop_limit_low (s : Settings) (tp : Nat) (e : Bool) (ts : List Tile)
    (rng : Nat) (a : PlantAcc) (h : a.limit ≤ 1) :
    (plantLoop s tp e ts rng a).earlyFail = none ∧
    (plantLoop s tp e ts rng a).tiles = ts ∧
    (plantLoop s tp e ts rng a).rng = rng ∧
    (plantLoop s tp e ts rng a).acc.cost = a.cost ∧
    (plantLoop s tp e ts rng a).acc.planted = a.planted := by
  induction ts generalizing rng a with
  | nil => exact ⟨rfl, rfl, rfl, rfl, rfl⟩
  | cons t ts ih =>
    simp only [plantLoop]
    cases hc : classify s tp a.limit t with
    | skipC m =>
        have h5 := ih rng { a with msg := m, trace := a.trace ++ [m] } h
        simp [h5.1, h5.2.1, h5.2.2.1, h5.2.2.2.1, h5.2.2.2.2]
    | skipB m =>
        by_cases hl : a.limit < 0
        · simp [hl]
        · have h5 := ih rng { a with msg := m, trace := a.trace ++ [m] } h
          simp [hl, h5.1, h5.2.1, h5.2.2.1, h5.2.2.2.1, h5.2.2.2.2]
    | limitReached =>
        by_cases hl : a.limit - 1 < 0
        · simp [hl]
        · have h5 := ih rng { a with limit := a.limit - 1, msg := Msg.treePlantLimitReached, trace := a.trace ++ [Msg.treePlantLimitReached] } (by simp; omega)
          simp [hl, h5.1, h5.2.1, h5.2.2.1, h5.2.2.2.1, h5.2.2.2.2]
    | subFail m =>
        exfalso
        have h2 := classify_gated_two_le s tp a.limit t (by rw [hc]; rfl)
        omega
    | grow =>
        exfalso
        have h2 := classify_gated_two_le s tp a.limit t (by rw [hc]; rfl)
        omega
    | addStem =>
        exfalso
        have h2 := classify_gated_two_le s tp a.limit t (by rw [hc]; rfl)
        omega
    | plantNew c cleared =>
        exfalso
        have h2 := classify_gated_two_le s tp a.limit t (by rw [hc]; rfl)
        omega

theorem plantLoop_planted_bound (s : Settings) (tp : Nat) (e : Bool) (ts : List Tile)
    (rng : Nat) (a : PlantAcc) :
    (plantLoop s tp e ts rng a).acc.planted ≤ a.planted + (a.limit - 1).toNat := by
  induction ts generalizing rng a with
  | nil => simp [plantLoop]
  | cons t ts ih =>
    simp only [plantLoop]
    cases hc : classify s tp a.limit t with
    | skipC m =>
        have h5 := ih rng { a with msg := m, trace := a.trace ++ [m] }
        simpa using h5
    | skipB m =>
        by_cases hl : a.limit < 0
        · simp [hl]
        · have h5 := ih rng { a with msg := m, trace := a.trace ++ [m] }
          simp [hl]
          simpa using h5
    | limitReached =>
        by_cases hl : a.limit - 1 < 0
        · simp [hl]
        · have h5 := ih rng { a with limit := a.limit - 1, msg := Msg.treePlantLimitReached, trace := a.trace ++ [Msg.treePlantLimitReached] }
          simp only [hl, if_false]
          simp only [PlantAcc.mk.injEq] at h5 ⊢
          simp at h5 ⊢
          omega
    | subFail m => simp
    | grow =>
        have h2 := classify_gated_two_le s tp a.limit t (by rw [hc]; rfl)
        have hl : ¬ (a.limit - 1 < 0) := by omega
        have h5 := ih ((applyPlant s tp e t Decision.grow rng).2) { a with limit := a.limit - 1, cost := a.cost + 2 * s.priceBuildTrees, planted := a.planted + 1 }
        simp only [hl, if_false]
        simp at h5 ⊢
        omega
    | addStem =>
        have h2 := classify_gated_two_le s tp a.limit t (by rw [hc]; rfl)
        have hl : ¬ (a.limit - 1 < 0) := by omega
        have h5 := ih ((applyPlant s tp e t Decision.addStem rng).2) { a with limit := a.limit - 1, cost := a.cost + 2 * s.priceBuildTrees, planted := a.planted + 1 }
        simp only [hl, if_false]
        simp at h5 ⊢
        omega
    | plantNew c cleared =>
        have h2 := classify_gated_two_le s tp a.limit t (by rw [hc]; rfl)
        have hl : ¬ (a.limit - 1 < 0) := by omega
        have h5 := ih ((applyPlant s tp e t (Decision.plantNew c cleared) rng).2) { a with limit := a.limit - 1, cost := a.cost + c + s.priceBuildTrees, planted := a.planted + 1 }
        simp only [hl, if_false]
        simp at h5 ⊢
        omega

/-- C10: Implicit quota off-by-one.  Outside editor mode, with a company
whose remaining quota word encodes q trees, one CmdPlantTree invocation
plants at most q - 1 trees, because the limit check decrements the local
counter before comparing it against 1; any planting attempt made when the
remaining counter is at most 1 is refused with the plant-limit-reached
reason, and with q exactly 1 the command plants nothing, mutates nothing,
leaves the quota word unchanged and returns a failed Cost/Result. -/
theorem CmdPlantTree_quota_off_by_one (s : Settings) (p1 p2 mapSize : Nat)
    (tiles : List Tile) (rng : Nat) (tl : Nat) (exec : Bool)
    (hed : s.gameModeEditor = false) :
    (CmdPlantTree s exec p1 p2 mapSize tiles rng (some tl)).acc.planted ≤ GB tl 16 16 - 1 ∧
    (∀ (L : Int) (t : Tile), L ≤ 1 → DecisionPlants (classifyPre s (GB p1 0 8) t) = true →
      classify s (GB p1 0 8) L t = Decision.limitReached) ∧
    (GB tl 16 16 = 1 →
      (CmdPlantTree s exec p1 p2 mapSize tiles rng (some tl)).tiles = tiles ∧
      (CmdPlantTree s exec p1 p2 mapSize tiles rng (some tl)).acc.planted = 0 ∧
      (CmdPlantTree s exec p1 p2 mapSize tiles rng (some tl)).treeLimit = some tl ∧
      ∃ m, (CmdPlantTree s exec p1 p2 mapSize tiles rng (some tl)).res = CmdResult.fail m) := by
  have hlim : EffectiveTreeLimit s (some tl) = (GB tl 16 16 : Int) := by
    simp [EffectiveTreeLimit, hed]
  refine ⟨?_, ?_, ?_⟩
  · simp only [CmdPlantTree]
    split
    · simp
    · split
      · simp
      · have hb := plantLoop_planted_bound s (GB p1 0 8) exec tiles rng
          ⟨EffectiveTreeLimit s (some tl), 0, Msg.invalid, 0, []⟩
        simp only [] at hb ⊢
        omega
  · intro L t hL hplant
    exact classify_low_of_gated s (GB p1 0 8) L t hL
      (DecisionPlants_gated _ hplant)
  · intro hq
    simp only [CmdPlantTree]
    split
    · simp
    · split
      · simp
      · have hlow := plantLoop_limit_low s (GB p1 0 8) exec tiles rng
          ⟨EffectiveTreeLimit s (some tl), 0, Msg.invalid, 0, []⟩
          (by rw [hlim, hq]; norm_num)
        simp [hed, hlow.1, hlow.2.1, hlow.2.2.1, hlow.2.2.2.1, hlow.2.2.2.2]

theorem CmdPlantTree_quota_off_by_one_witness :
    sBase.gameModeEditor = false ∧
    (CmdPlantTree sBase true 0 0 1 [grassTile] 0 (some 65536)).acc.planted ≤
      GB 65536 16 16 - 1 ∧
    ((CmdPlantTree sBase true 0 0 1 [grassTile] 0 (some 65536)).tiles = [grassTile] ∧
      ∃ m, (CmdPlantTree sBase true 0 0 1 [grassTile] 0 (some 65536)).res = CmdResult.fail m) := by
  have h := CmdPlantTree_quota_off_by_one sBase 0 0 1 [grassTile] 0 65536 true rfl
  have h3 := h.2.2 (by decide)
  exact ⟨rfl, h.1, h3.1, h3.2.2.2⟩

theorem plantLoop_msg_last (s : Settings) (tp : Nat) (e : Bool) (ts : List Tile)
    (rng : Nat) (a : PlantAcc)
    (h : a.msg = a.trace.getLast?.getD Msg.invalid) :
    (plantLoop s tp e ts rng a).acc.msg =
      (plantLoop s tp e ts rng a).acc.trace.getLast?.getD Msg.invalid := by
  induction ts generalizing rng a with
  | nil => exact h
  | cons t ts ih =>
    simp only [plantLoop]
    cases hc : classify s tp a.limit t with
    | skipC m =>
        exact ih rng { a with msg := m, trace := a.trace ++ [m] } (by simp)
    | skipB m =>
        by_cases hl : a.limit < 0
        · simp [hl]
        · simp only [hl, if_false]
          exact ih rng { a with msg := m, trace := a.trace ++ [m] } (by simp)
    | limitReached =>
        by_cases hl : a.limit - 1 < 0
        · simp [hl]
        · simp only [hl, if_false]
          exact ih rng { a with limit := a.limit - 1, msg := Msg.treePlantLimitReached, trace := a.trace ++ [Msg.treePlantLimitReached] } (by simp)
    | subFail m => exact h
    | grow =>
        by_cases hl : a.limit - 1 < 0
        · simpa [hl] using h
        · simp only [hl, if_false]
          exact ih _ { a with limit := a.limit - 1, cost := a.cost + 2 * s.priceBuildTrees, planted := a.planted + 1 } h
    | addStem =>
        by_cases hl : a.limit - 1 < 0
        · simpa [hl] using h
        · simp only [hl, if_false]
          exact ih _ { a with limit := a.limit - 1, cost := a.cost + 2 * s.priceBuildTrees, planted := a.planted + 1 } h
    | plantNew c cleared =>
        by_cases hl : a.limit - 1 < 0
        · simpa [hl] using h
        · simp only [hl, if_false]
          exact ih _ { a with limit := a.limit - 1, cost := a.cost + c + s.priceBuildTrees, planted := a.planted + 1 } h

/-- C3 (counterexample): a batch whose first tile fails as unsuitable and
whose second tile fails as unbuildable water reports the second (last)
failure reason, not the first. -/
theorem CmdPlantTree_first_failure_counterexample :
    (CmdPlantTree sBase true 0 0 1 [otherTile, badWaterTile] 0 none).res =
      CmdResult.fail Msg.cantBuildOnWater ∧
    (CmdPlantTree sBase true 0 0 1 [otherTile, badWaterTile] 0 none).acc.trace =
      [Msg.siteUnsuitable, Msg.cantBuildOnWater] ∧
    Msg.cantBuildOnWater ≠ Msg.siteUnsuitable := by decide

/-- C3 (amended): Failure reporting.  For every CmdPlantTree batch that runs
to completion (no aborting sub-command) with zero accumulated cost, the
command returns a failed Cost/Result whose error reason is the LAST failure
reason written during the tile iteration (the source's msg variable is
overwritten by each failing tile), not the first. -/
theorem CmdPlantTree_reports_last_failure (s : Settings) (p1 p2 mapSize : Nat)
    (tiles : List Tile) (rng : Nat) (company : Option Nat) (exec : Bool)
    (h1 : (CmdPlantTree s exec p1 p2 mapSize tiles rng company).earlyFail = none)
    (h2 : (CmdPlantTree s exec p1 p2 mapSize tiles rng company).acc.cost = 0) :
    (CmdPlantTree s exec p1 p2 mapSize tiles rng company).res =
      CmdResult.fail
        ((CmdPlantTree s exec p1 p2 mapSize tiles rng
            company).acc.trace.getLast?.getD Msg.invalid) := by
  have hml := plantLoop_msg_last s (GB p1 0 8) exec tiles rng
    ⟨EffectiveTreeLimit s company, 0, Msg.invalid, 0, []⟩ rfl
  by_cases c1 : p2 ≥ mapSize
  · simp [CmdPlantTree, c1]
  · by_cases c2 : (decide (GB p1 0 8 ≠ TREE_INVALID) &&
        !(IsInsideBS (GB p1 0 8) s.treeBase s.treeCountClimate)) = true
    · simp only [CmdPlantTree]
      rw [if_neg c1, if_pos c2]
      simp
    · simp only [CmdPlantTree] at h1 h2 ⊢
      rw [if_neg c1, if_neg c2] at h1 h2 ⊢
      simp only [] at h1 h2 ⊢
      simp [h1, h2, hml]

theorem CmdPlantTree_reports_last_failure_witness :
    (CmdPlantTree sBase true 0 0 1 [otherTile, badWaterTile] 0 none).earlyFail = none ∧
    (CmdPlantTree sBase true 0 0 1 [otherTile, badWaterTile] 0 none).acc.cost = 0 ∧
    (CmdPlantTree sBase true 0 0 1 [otherTile, badWaterTile] 0 none).res =
      CmdResult.fail
        ((CmdPlantTree sBase true 0 0 1 [otherTile, badWaterTile] 0
            none).acc.trace.getLast?.getD Msg.invalid) :=
  ⟨by decide, by decide,
    CmdPlantTree_reports_last_failure sBase 0 0 1 [otherTile, badWaterTile] 0 none true
      (by decide) (by decide)⟩

/-- Whether the CmdPlantTree area loop iterates past every tile of the given
list: no break on the loop-end limit test and no aborting sub-command, with
the accounting threaded exactly as plantLoop threads it. -/
def plantLoopRunsThrough (s : Settings) (treeToPlant : Nat) (exec : Bool) :
    List Tile → Nat → PlantAcc → Bool
  | [], _, _ => true
  | t :: ts, rng, a =>
    match classify s treeToPlant a.limit t with
    | Decision.skipC m =>
        plantLoopRunsThrough s treeToPlant exec ts rng
          { a with msg := m, trace := a.trace ++ [m] }
    | Decision.skipB m =>
        let a2 := { a with msg := m, trace := a.trace ++ [m] }
        if a2.limit < 0 then false
        else plantLoopRunsThrough s treeToPlant exec ts rng a2
    | Decision.limitReached =>
        let a2 := { a with limit := a.limit - 1, msg := Msg.treePlantLimitReached, trace := a.trace ++ [Msg.treePlantLimitReached] }
        if a2.limit < 0 then false
        else plantLoopRunsThrough s treeToPlant exec ts rng a2
    | Decision.subFail _ => false
    | Decision.grow =>
        let a2 := { a with limit := a.limit - 1, cost := a.cost + 2 * s.priceBuildTrees, planted := a.planted + 1 }
        let tr := applyPlant s treeToPlant exec t Decision.grow rng
        if a2.limit < 0 then false
        else plantLoopRunsThrough s treeToPlant exec ts tr.2 a2
    | Decision.addStem =>
        let a2 := { a with limit := a.limit - 1, cost := a.cost + 2 * s.priceBuildTrees, planted := a.planted + 1 }
        let tr := applyPlant s treeToPlant exec t Decision.addStem rng
        if a2.limit < 0 then false
        else plantLoopRunsThrough s treeToPlant exec ts tr.2 a2
    | Decision.plantNew c cleared =>
        let a2 := { a with limit := a.limit - 1, cost := a.cost + c + s.priceBuildTrees, planted := a.planted + 1 }
        let tr := applyPlant s treeToPlant exec t (Decision.plantNew c cleared) rng
        if a2.limit < 0 then false
        else plantLoopRunsThrough s treeToPlant exec ts tr.2 a2

theorem plantLoop_append_runsThrough (s : Settings) (tp : Nat) (e : Bool)
    (pre rest : List Tile) (rng : Nat) (a : PlantAcc)
    (h : plantLoopRunsThrough s tp e pre rng a = true) :
    (plantLoop s tp e (pre ++ rest) rng a).earlyFail =
      (plantLoop s tp e rest (plantLoop s tp e pre rng a).rng
        (plantLoop s tp e pre rng a).acc).earlyFail ∧
    (plantLoop s tp e (pre ++ rest) rng a).tiles =
      (plantLoop s tp e pre rng a).tiles ++
        (plantLoop s tp e rest (plantLoop s tp e pre rng a).rng
          (plantLoop s tp e pre rng a).acc).tiles ∧
    (plantLoop s tp e (pre ++ rest) rng a).rng =
      (plantLoop s tp e rest (plantLoop s tp e pre rng a).rng
        (plantLoop s tp e pre rng a).acc).rng ∧
    (plantLoop s tp e (pre ++ rest) rng a).acc =
      (plantLoop s tp e rest (plantLoop s tp e pre rng a).rng
        (plantLoop s tp e pre rng a).acc).acc := by
  induction pre generalizing rng a with
  | nil => simp [plantLoop]
  | cons u pre ih =>
    simp only [List.cons_append, plantLoop]
    cases hc : classify s tp a.limit u with
    | skipC m =>
        simp only [plantLoopRunsThrough, hc] at h
        simpa using ih rng { a with msg := m, trace := a.trace ++ [m] } h
    | skipB m =>
        simp only [plantLoopRunsThrough, hc] at h
        by_cases hl : a.limit < 0
        · rw [if_pos hl] at h; exact absurd h (by simp)
        · rw [if_neg hl] at h
          simp only [hl, if_false]
          simpa using ih rng { a with msg := m, trace := a.trace ++ [m] } h
    | limitReached =>
        simp only [plantLoopRunsThrough, hc] at h
        by_cases hl : a.limit - 1 < 0
        · rw [if_pos hl] at h; exact absurd h (by simp)
        · rw [if_neg hl] at h
          simp only [hl, if_false]
          simpa using ih rng { a with limit := a.limit - 1, msg := Msg.treePlantLimitReached, trace := a.trace ++ [Msg.treePlantLimitReached] } h
    | subFail m =>
        simp only [plantLoopRunsThrough, hc] at h
        exact absurd h (by simp)
    | grow =>
        simp only [plantLoopRunsThrough, hc] at h
        by_cases hl : a.limit - 1 < 0
        · rw [if_pos hl] at h; exact absurd h (by simp)
        · rw [if_neg hl] at h
          simp only [hl, if_false]
          simpa using ih (applyPlant s tp e u Decision.grow rng).2
            { a with limit := a.limit - 1, cost := a.cost + 2 * s.priceBuildTrees, planted := a.planted + 1 } h
    | addStem =>
        simp only [plantLoopRunsThrough, hc] at h
        by_cases hl : a.limit - 1 < 0
        · rw [if_pos hl] at h; exact absurd h (by simp)
        · rw [if_neg hl] at h
          simp only [hl, if_false]
          simpa using ih (applyPlant s tp e u Decision.addStem rng).2
            { a with limit := a.limit - 1, cost := a.cost + 2 * s.priceBuildTrees, planted := a.planted + 1 } h
    | plantNew c cleared =>
        simp only [plantLoopRunsThrough, hc] at h
        by_cases hl : a.limit - 1 < 0
        · rw [if_pos hl] at h; exact absurd h (by simp)
        · rw [if_neg hl] at h
          simp only [hl, if_false]
          simpa using ih (applyPlant s tp e u (Decision.plantNew c cleared) rng).2
            { a with limit := a.limit - 1, cost := a.cost + c + s.priceBuildTrees, planted := a.planted + 1 } h

/-- C6: Composition propagation.  In a CmdPlantTree batch, whenever the
iteration reaches a tile whose planting runs the CMD_LANDSCAPE_CLEAR
sub-command and that sub-command fails — no matter what the loop did on the
earlier tiles, skips and successful plantings alike — the whole command's
Cost/Result is exactly the sub-command's failure, that unit of work
contributes zero net cost and zero plantings (the final accounting is the
one accumulated strictly before that tile), no step of that tile or of any
later tile is applied, and the quota word reflects only the earlier
plantings. -/
theorem CmdPlantTree_subcommand_failure (s : Settings) (p1 p2 mapSize : Nat)
    (pre post : List Tile) (t : Tile) (m : Msg) (rng : Nat) (company : Option Nat)
    (exec : Bool)
    (hp2 : p2 < mapSize)
    (htt : GB p1 0 8 = TREE_INVALID ∨
      IsInsideBS (GB p1 0 8) s.treeBase s.treeCountClimate = true)
    (hpre : plantLoopRunsThrough s (GB p1 0 8) exec pre rng
      ⟨EffectiveTreeLimit s company, 0, Msg.invalid, 0, []⟩ = true)
    (hsub : classifyPre s (GB p1 0 8) t = Decision.subFail m)
    (hgate : 2 ≤ (plantLoop s (GB p1 0 8) exec pre rng
      ⟨EffectiveTreeLimit s company, 0, Msg.invalid, 0, []⟩).acc.limit) :
    (CmdPlantTree s exec p1 p2 mapSize (pre ++ t :: post) rng company).res =
      CmdResult.fail m ∧
    (CmdPlantTree s exec p1 p2 mapSize (pre ++ t :: post) rng company).tiles =
      (plantLoop s (GB p1 0 8) exec pre rng
        ⟨EffectiveTreeLimit s company, 0, Msg.invalid, 0, []⟩).tiles ++ t :: post ∧
    (CmdPlantTree s exec p1 p2 mapSize (pre ++ t :: post) rng company).acc =
      (plantLoop s (GB p1 0 8) exec pre rng
        ⟨EffectiveTreeLimit s company, 0, Msg.invalid, 0, []⟩).acc ∧
    (CmdPlantTree s exec p1 p2 mapSize (pre ++ t :: post) rng company).rng =
      (plantLoop s (GB p1 0 8) exec pre rng
        ⟨EffectiveTreeLimit s company, 0, Msg.invalid, 0, []⟩).rng ∧
    (CmdPlantTree s exec p1 p2 mapSize (pre ++ t :: post) rng company).treeLimit =
      (if s.gameModeEditor then company
       else company.map (fun tl =>
         if exec then
           tl - (plantLoop s (GB p1 0 8) exec pre rng
             ⟨EffectiveTreeLimit s company, 0, Msg.invalid, 0, []⟩).acc.planted * 2 ^ 16
         else tl)) := by
  have c1 : ¬ (p2 ≥ mapSize) := by omega
  have c2 : ¬ ((decide (GB p1 0 8 ≠ TREE_INVALID) &&
      !(IsInsideBS (GB p1 0 8) s.treeBase s.treeCountClimate)) = true) := by
    rcases htt with h | h <;> simp [h]
  obtain ⟨e1, e2, e3, e4⟩ := plantLoop_append_runsThrough s (GB p1 0 8) exec pre
    (t :: post) rng ⟨EffectiveTreeLimit s company, 0, Msg.invalid, 0, []⟩ hpre
  have hct : classify s (GB p1 0 8)
      (plantLoop s (GB p1 0 8) exec pre rng
        ⟨EffectiveTreeLimit s company, 0, Msg.invalid, 0, []⟩).acc.limit t =
      Decision.subFail m := by
    rw [classify_eq_pre s (GB p1 0 8) _ t hgate]; exact hsub
  have hrest : plantLoop s (GB p1 0 8) exec (t :: post)
      (plantLoop s (GB p1 0 8) exec pre rng
        ⟨EffectiveTreeLimit s company, 0, Msg.invalid, 0, []⟩).rng
      (plantLoop s (GB p1 0 8) exec pre rng
        ⟨EffectiveTreeLimit s company, 0, Msg.invalid, 0, []⟩).acc =
      ⟨some m, t :: post,
        (plantLoop s (GB p1 0 8) exec pre rng
          ⟨EffectiveTreeLimit s company, 0, Msg.invalid, 0, []⟩).rng,
        (plantLoop s (GB p1 0 8) exec pre rng
          ⟨EffectiveTreeLimit s company, 0, Msg.invalid, 0, []⟩).acc⟩ := by
    simp only [plantLoop, hct]
  simp only [CmdPlantTree]
  rw [if_neg c1, if_neg c2]
  refine ⟨?_, ?_, ?_, ?_, ?_⟩
  · simp only []
    rw [e1, hrest]
  · simp only []
    rw [e2, hrest]
  · simp only []
    rw [e4, hrest]
  · simp only []
    rw [e3, hrest]
  · simp only []
    rw [e4, hrest]
    simp only []
    by_cases he : s.gameModeEditor
    · simp [he]
    · cases company with
      | none => simp [he]
      | some tl => simp [he]

/-- Witness for the sub-command propagation theorem on a batch whose prefix
contains a successful planting: the first tile of the area is planted (one
planting, cost accrued), the second tile's landscape-clear sub-command
fails, and the whole command reports exactly that failure with only the
prefix's accounting kept. -/
theorem CmdPlantTree_subcommand_failure_witness :
    (plantLoopRunsThrough sSubFail 0 true [grassTile] 0
        ⟨EffectiveTreeLimit sSubFail none, 0, Msg.invalid, 0, []⟩ = true ∧
      classifyPre sSubFail 0 snowFieldsTile = Decision.subFail (Msg.subError 7) ∧
      2 ≤ (plantLoop sSubFail 0 true [grassTile] 0
        ⟨EffectiveTreeLimit sSubFail none, 0, Msg.invalid, 0, []⟩).acc.limit) ∧
    (CmdPlantTree sSubFail true 0 0 1 [grassTile, snowFieldsTile, grassTile] 0 none).res =
      CmdResult.fail (Msg.subError 7) ∧
    (plantLoop sSubFail 0 true [grassTile] 0
      ⟨EffectiveTreeLimit sSubFail none, 0, Msg.invalid, 0, []⟩).acc.planted = 1 := by
  have h := CmdPlantTree_subcommand_failure sSubFail 0 0 1 [grassTile] [grassTile]
    snowFieldsTile (Msg.subError 7) 0 none true (by decide) (by decide)
    (by decide) (by decide) (by decide)
  exact ⟨⟨by decide, by decide, by decide⟩, h.1, by decide⟩

/-- C7 (counterexample): under the perfect placer, planting on a full tree
tile (four stems, growth 2) succeeds by advancing growth, but at exactly
the same cost (twice the tree price, here 12) as adding a stem to a
non-full tree tile costs, refuting the claimed different (typically lower)
cost. -/
theorem CmdPlantTree_grow_cost_counterexample :
    (CmdPlantTree sPerfect true 0 0 1 [fullTreeTile] 0 none).res = CmdResult.ok 12 ∧
    (CmdPlantTree sPerfect true 0 0 1 [addTreeTile] 0 none).res = CmdResult.ok 12 ∧
    (CmdPlantTree sPerfect true 0 0 1 [fullTreeTile] 0 none).tiles =
      [⟨TileKind.trees 0 4 3 TreeGround.grass 3, TropicZone.normal, false, 4, 4, false⟩] ∧
    (CmdPlantTree sPerfect true 0 0 1 [fullTreeTile] 0 none).res =
      (CmdPlantTree sPerfect true 0 0 1 [addTreeTile] 0 none).res := by decide

/-- C7 (amended): Grow-instead-of-add.  Under the perfect tree placer, a
trees tile already at the maximum stem count (4) with growth stage below 3
is handled by CmdPlantTree by advancing the growth stage to 3 instead of
adding a stem, and it charges exactly the same cost as adding a stem to an
existing tree tile does: twice the tree price (double the fresh-planting
price), not a different one. -/
theorem CmdPlantTree_grow_instead_of_add (s : Settings) (p1 p2 mapSize rng : Nat)
    (t u : Tile) (ty growth : Nat) (gr : TreeGround) (de : Nat)
    (uty ucnt ugrowth : Nat) (ugr : TreeGround) (ude : Nat)
    (hperfect : s.treePlacer = TreePlacer.TP_PERFECT)
    (hp2 : p2 < mapSize)
    (htt : GB p1 0 8 = TREE_INVALID ∨
      IsInsideBS (GB p1 0 8) s.treeBase s.treeCountClimate = true)
    (ht : t.kind = TileKind.trees ty 4 growth gr de)
    (hg : growth < 3)
    (hu : u.kind = TileKind.trees uty ucnt ugrowth ugr ude)
    (hcnt : ucnt < 4)
    (humax : uty = TREE_CACTUS ∨ ucnt < MaxTreeCount s u)
    (hprice : 0 < s.priceBuildTrees) :
    (CmdPlantTree s true p1 p2 mapSize [t] rng none).res =
      CmdResult.ok (2 * s.priceBuildTrees) ∧
    (CmdPlantTree s true p1 p2 mapSize [t] rng none).tiles =
      [{ t with kind := TileKind.trees ty 4 3 gr de }] ∧
    (CmdPlantTree s true p1 p2 mapSize [u] rng none).res =
      CmdResult.ok (2 * s.priceBuildTrees) := by
  have c1 : ¬ (p2 ≥ mapSize) := by omega
  have c2 : ¬ ((decide (GB p1 0 8 ≠ TREE_INVALID) &&
      !(IsInsideBS (GB p1 0 8) s.treeBase s.treeCountClimate)) = true) := by
    rcases htt with h | h <;> simp [h]
  have hL : EffectiveTreeLimit s none = INT32_MAX := by
    simp [EffectiveTreeLimit]
  have hLge : (2 : Int) ≤ EffectiveTreeLimit s none := by
    rw [hL]; norm_num [INT32_MAX]
  have hpret : classifyPre s (GB p1 0 8) t = Decision.grow := by
    unfold classifyPre
    rw [ht]
    simp [hperfect, hg]
  have hpreu : classifyPre s (GB p1 0 8) u = Decision.addStem := by
    unfold classifyPre
    rw [hu]
    have h1 : ¬ (ucnt ≥ 4) := by omega
    rcases humax with h2 | h2
    · simp [hperfect, h1, h2]
    · have h3 : ¬ (ucnt ≥ MaxTreeCount s u) := by omega
      simp [hperfect, h1, h3]
  have hct : classify s (GB p1 0 8) (EffectiveTreeLimit s none) t = Decision.grow := by
    rw [classify_eq_pre s (GB p1 0 8) _ t hLge]; exact hpret
  have hcu : classify s (GB p1 0 8) (EffectiveTreeLimit s none) u = Decision.addStem := by
    rw [classify_eq_pre s (GB p1 0 8) _ u hLge]; exact hpreu
  have hnb : ¬ (EffectiveTreeLimit s none - 1 < 0) := by omega
  have hcost : ¬ ((0 : Int) + 2 * s.priceBuildTrees = 0) := by omega
  have hp0 : s.priceBuildTrees ≠ 0 := by omega
  refine ⟨?_, ?_, ?_⟩
  · simp only [CmdPlantTree]
    rw [if_neg c1, if_neg c2]
    simp only [plantLoop, hct, hnb, if_false, applyPlant]
    simp [hcost, hp0]
  · simp only [CmdPlantTree]
    rw [if_neg c1, if_neg c2]
    simp only [plantLoop, hct, hnb, if_false, applyPlant]
    simp [ht]
  · simp only [CmdPlantTree]
    rw [if_neg c1, if_neg c2]
    simp only [plantLoop, hcu, hnb, if_false, applyPlant]
    simp [hcost, hp0]

theorem CmdPlantTree_grow_instead_of_add_witness :
    (sPerfect.treePlacer = TreePlacer.TP_PERFECT ∧ (0 : Nat) < 1 ∧ (2 : Nat) < 3 ∧
      (1 : Nat) < 4 ∧ 1 < MaxTreeCount sPerfect addTreeTile ∧
      (0 : Int) < sPerfect.priceBuildTrees) ∧
    (CmdPlantTree sPerfect true 0 0 1 [fullTreeTile] 0 none).res =
      CmdResult.ok (2 * sPerfect.priceBuildTrees) ∧
    (CmdPlantTree sPerfect true 0 0 1 [addTreeTile] 0 none).res =
      CmdResult.ok (2 * sPerfect.priceBuildTrees) := by
  have h := CmdPlantTree_grow_instead_of_add sPerfect 0 0 1 0 fullTreeTile addTreeTile
    0 2 TreeGround.grass 3 0 1 0 TreeGround.grass 3
    rfl (by decide) (by decide) rfl (by decide) rfl (by decide) (by decide) (by decide)
  exact ⟨⟨rfl, by decide, by decide, by decide, by decide, by decide⟩, h.1, h.2.2⟩

theorem classifyPre_plantNew_inv (s : Settings) (tp : Nat) (t : Tile) (c : Int)
    (cl : Tile) (h : classifyPre s tp t = Decision.plantNew c cl) :
    (c = 0 ∧ cl = t) ∨ s.landscapeClear t = (CmdResult.ok c, cl) := by
  unfold classifyPre classifyClearPath at h
  (repeat' split at h) <;>
    first
      | (simp at h; done)
      | (simp only [Decision.plantNew.injEq] at h
         rename_i heq
         exact Or.inr (by rw [heq, h.1, h.2]))
      | (simp only [Decision.plantNew.injEq] at h
         exact Or.inl ⟨h.1.symm, h.2.symm⟩)
      | simp_all

theorem tileCost_nonneg (s : Settings) (tp : Nat) (t : Tile)
    (hprice : 0 ≤ s.priceBuildTrees)
    (hclear : ∀ (u : Tile) (c : Int) (v : Tile),
      s.landscapeClear u = (CmdResult.ok c, v) → 0 ≤ c) :
    0 ≤ tileCost s tp t := by
  unfold tileCost
  cases hp : classifyPre s tp t
  case plantNew c cl =>
    simp only []
    rcases classifyPre_plantNew_inv s tp t c cl hp with ⟨h1, _⟩ | h2
    · omega
    · have := hclear t c cl h2
      omega
  all_goals simp only []
  all_goals omega

theorem tileCost_ge_price (s : Settings) (tp : Nat) (t : Tile)
    (hf : tileFeasible s tp t = true)
    (hprice : 0 ≤ s.priceBuildTrees)
    (hclear : ∀ (u : Tile) (c : Int) (v : Tile),
      s.landscapeClear u = (CmdResult.ok c, v) → 0 ≤ c) :
    s.priceBuildTrees ≤ tileCost s tp t := by
  have hdp : DecisionPlants (classifyPre s tp t) = true := hf
  unfold tileCost
  cases hp : classifyPre s tp t
  case grow => simp only []; omega
  case addStem => simp only []; omega
  case plantNew c cl =>
    simp only []
    rcases classifyPre_plantNew_inv s tp t c cl hp with ⟨h1, _⟩ | h2
    · omega
    · have := hclear t c cl h2
      omega
  all_goals (rw [hp] at hdp; simp [DecisionPlants] at hdp)

theorem tileCost_zero_of_infeasible (s : Settings) (tp : Nat) (t : Tile)
    (hf : tileFeasible s tp t = false) : tileCost s tp t = 0 := by
  have hdp : DecisionPlants (classifyPre s tp t) = false := hf
  unfold tileCost
  cases hp : classifyPre s tp t
  case grow => rw [hp] at hdp; simp [DecisionPlants] at hdp
  case addStem => rw [hp] at hdp; simp [DecisionPlants] at hdp
  case plantNew c cl => rw [hp] at hdp; simp [DecisionPlants] at hdp
  all_goals rfl

theorem sumFeasibleCost_nonneg (s : Settings) (tp : Nat) (ts : List Tile)
    (hprice : 0 ≤ s.priceBuildTrees)
    (hclear : ∀ (u : Tile) (c : Int) (v : Tile),
      s.landscapeClear u = (CmdResult.ok c, v) → 0 ≤ c) :
    0 ≤ sumFeasibleCost s tp ts := by
  unfold sumFeasibleCost
  apply List.sum_nonneg
  intro x hx
  obtain ⟨t, _, rfl⟩ := List.mem_map.mp hx
  exact tileCost_nonneg s tp t hprice hclear

theorem sumFeasibleCost_pos (s : Settings) (tp : Nat) (ts : List Tile)
    (hK : 0 < countFeasible s tp ts)
    (hprice : 0 < s.priceBuildTrees)
    (hclear : ∀ (u : Tile) (c : Int) (v : Tile),
      s.landscapeClear u = (CmdResult.ok c, v) → 0 ≤ c) :
    0 < sumFeasibleCost s tp ts := by
  induction ts with
  | nil => simp [countFeasible] at hK
  | cons t ts ih =>
    simp only [sumFeasibleCost, List.map_cons, List.sum_cons]
    by_cases hf : tileFeasible s tp t = true
    · have h1 := tileCost_ge_price s tp t hf (by omega) hclear
      have h2 := sumFeasibleCost_nonneg s tp ts (by omega) hclear
      unfold sumFeasibleCost at h2
      omega
    · have hf0 : tileFeasible s tp t = false := by
        cases hq : tileFeasible s tp t
        · rfl
        · exact absurd hq hf
      have h1 := tileCost_zero_of_infeasible s tp t hf0
      have hK2 : 0 < countFeasible s tp ts := by
        simp only [countFeasible, List.countP_cons, hf0] at hK ⊢
        simpa using hK
      have h2 := ih hK2
      unfold sumFeasibleCost at h2
      omega

theorem plantLoop_partial_success (s : Settings) (tp : Nat) (e : Bool) (ts : List Tile)
    (rng : Nat) (a : PlantAcc)
    (hsub : ∀ t ∈ ts, DecisionPlants (classifyPre s tp t) = true ∨
      DecisionGated (classifyPre s tp t) = false)
    (hlim : (countFeasible s tp ts : Int) < a.limit) :
    (plantLoop s tp e ts rng a).earlyFail = none ∧
    (plantLoop s tp e ts rng a).acc.cost = a.cost + sumFeasibleCost s tp ts ∧
    (plantLoop s tp e ts rng a).acc.planted = a.planted + countFeasible s tp ts ∧
    List.Forall₂ (fun t u => tileFeasible s tp t = false → u = t) ts
      (plantLoop s tp e ts rng a).tiles := by
  induction ts generalizing rng a with
  | nil =>
    refine ⟨rfl, ?_, rfl, List.Forall₂.nil⟩
    simp [plantLoop, sumFeasibleCost]
  | cons t ts ih =>
    have hcc : countFeasible s tp (t :: ts) =
        (if tileFeasible s tp t then 1 else 0) + countFeasible s tp ts := by
      simp [countFeasible, List.countP_cons]
      by_cases hft : tileFeasible s tp t = true <;> simp [hft] <;> omega
    have hss : sumFeasibleCost s tp (t :: ts) =
        tileCost s tp t + sumFeasibleCost s tp ts := by
      simp [sumFeasibleCost]
    have hcnn : (0 : Int) ≤ countFeasible s tp ts := by positivity
    simp only [plantLoop]
    rcases hsub t (by simp) with hpl | hsk
    · have hft : tileFeasible s tp t = true := hpl
      have hL2 : 2 ≤ a.limit := by rw [hcc, hft] at hlim; simp at hlim; omega
      have hcl : classify s tp a.limit t = classifyPre s tp t :=
        classify_eq_pre s tp a.limit t hL2
      have hnb : ¬ (a.limit - 1 < 0) := by omega
      have hlim2 : ∀ (b : Int), b = a.limit - 1 →
          (countFeasible s tp ts : Int) < b := by
        intro b hb
        rw [hcc, hft] at hlim
        simp at hlim
        omega
      have hfrel : tileFeasible s tp t = false → ∀ u : Tile, u = t := by
        intro hff
        rw [hft] at hff
        exact absurd hff (by simp)
      cases hp : classifyPre s tp t with
      | skipC m => rw [hp] at hpl; simp [DecisionPlants] at hpl
      | skipB m => rw [hp] at hpl; simp [DecisionPlants] at hpl
      | limitReached => exact ((classifyPre_ne_limitReached s tp t) hp).elim
      | subFail m => rw [hp] at hpl; simp [DecisionPlants] at hpl
      | grow =>
          rw [hcl, hp]
          simp only [hnb, if_false]
          have hrec := ih ((applyPlant s tp e t Decision.grow rng).2)
            { a with limit := a.limit - 1, cost := a.cost + 2 * s.priceBuildTrees, planted := a.planted + 1 }
            (fun v hv => hsub v (by simp [hv])) (hlim2 _ (by simp))
          have htc : tileCost s tp t = 2 * s.priceBuildTrees := by
            unfold tileCost; rw [hp]
          refine ⟨by simpa using hrec.1, ?_, ?_, ?_⟩
          · have h2 := hrec.2.1
            simp only [] at h2 ⊢
            rw [h2, hss, htc]
            omega
          · have h2 := hrec.2.2.1
            simp only [] at h2 ⊢
            rw [h2, hcc, hft]
            first
              | omega
              | (simp
                 omega)
              | simp
          · exact List.Forall₂.cons (fun hff => absurd (hft ▸ hff) (by simp))
              hrec.2.2.2
      | addStem =>
          rw [hcl, hp]
          simp only [hnb, if_false]
          have hrec := ih ((applyPlant s tp e t Decision.addStem rng).2)
            { a with limit := a.limit - 1, cost := a.cost + 2 * s.priceBuildTrees, planted := a.planted + 1 }
            (fun v hv => hsub v (by simp [hv])) (hlim2 _ (by simp))
          have htc : tileCost s tp t = 2 * s.priceBuildTrees := by
            unfold tileCost; rw [hp]
          refine ⟨by simpa using hrec.1, ?_, ?_, ?_⟩
          · have h2 := hrec.2.1
            simp only [] at h2 ⊢
            rw [h2, hss, htc]
            omega
          · have h2 := hrec.2.2.1
            simp only [] at h2 ⊢
            rw [h2, hcc, hft]
            first
              | omega
              | (simp
                 omega)
              | simp
          · exact List.Forall₂.cons (fun hff => absurd (hft ▸ hff) (by simp))
              hrec.2.2.2
      | plantNew c cleared =>
          rw [hcl, hp]
          simp only [hnb, if_false]
          have hrec := ih ((applyPlant s tp e t (Decision.plantNew c cleared) rng).2)
            { a with limit := a.limit - 1, cost := a.cost + c + s.priceBuildTrees, planted := a.planted + 1 }
            (fun v hv => hsub v (by simp [hv])) (hlim2 _ (by simp))
          have htc : tileCost s tp t = c + s.priceBuildTrees := by
            unfold tileCost; rw [hp]
          refine ⟨by simpa using hrec.1, ?_, ?_, ?_⟩
          · have h2 := hrec.2.1
            simp only [] at h2 ⊢
            rw [h2, hss, htc]
            omega
          · have h2 := hrec.2.2.1
            simp only [] at h2 ⊢
            rw [h2, hcc, hft]
            first
              | omega
              | (simp
                 omega)
              | simp
          · exact List.Forall₂.cons (fun hff => absurd (hft ▸ hff) (by simp))
              hrec.2.2.2
    · have hft : tileFeasible s tp t = false := by
        unfold tileFeasible
        cases hp : classifyPre s tp t <;> rw [hp] at hsk <;>
          simp [DecisionGated] at hsk <;> simp [DecisionPlants]
      have hcl : classify s tp a.limit t = classifyPre s tp t :=
        classify_skip_cases s tp a.limit t hsk
      have hlim2 : (countFeasible s tp ts : Int) < a.limit := by
        rw [hcc, hft] at hlim
        simp at hlim
        omega
      have hL1 : ¬ (a.limit < 0) := by omega
      cases hp : classifyPre s tp t with
      | skipC m =>
          rw [hcl, hp]
          have hrec := ih rng { a with msg := m, trace := a.trace ++ [m] }
            (fun v hv => hsub v (by simp [hv])) (by simpa using hlim2)
          refine ⟨by simpa using hrec.1, ?_, ?_, ?_⟩
          · have h2 := hrec.2.1
            simp only [] at h2 ⊢
            rw [h2, hss, tileCost_zero_of_infeasible s tp t hft]
            omega
          · have h2 := hrec.2.2.1
            simp only [] at h2 ⊢
            rw [h2, hcc, hft]
            first
              | omega
              | (simp
                 omega)
              | simp
          · exact List.Forall₂.cons (fun _ => rfl) hrec.2.2.2
      | skipB m =>
          rw [hcl, hp]
          simp only [hL1, if_false]
          have hrec := ih rng { a with msg := m, trace := a.trace ++ [m] }
            (fun v hv => hsub v (by simp [hv])) (by simpa using hlim2)
          refine ⟨by simpa using hrec.1, ?_, ?_, ?_⟩
          · have h2 := hrec.2.1
            simp only [] at h2 ⊢
            rw [h2, hss, tileCost_zero_of_infeasible s tp t hft]
            omega
          · have h2 := hrec.2.2.1
            simp only [] at h2 ⊢
            rw [h2, hcc, hft]
            first
              | omega
              | (simp
                 omega)
              | simp
          · exact List.Forall₂.cons (fun _ => rfl) hrec.2.2.2
      | limitReached => exact ((classifyPre_ne_limitReached s tp t) hp).elim
      | subFail m => rw [hp] at hsk; simp [DecisionGated] at hsk
      | grow => rw [hp] at hsk; simp [DecisionGated] at hsk
      | addStem => rw [hp] at hsk; simp [DecisionGated] at hsk
      | plantNew c cleared => rw [hp] at hsk; simp [DecisionGated] at hsk

/-- C2 (counterexample): a batch of three tiles, exactly two individually
feasible (0 < K < N), submitted with a company quota word encoding two
remaining trees: the command reports success, but its cost is 6 (one
planting), not the feasible tiles' cost sum 12, because the quota check
consumes the batch mid-way.  The universally stated claim is therefore
false. -/
theorem CmdPlantTree_partial_success_counterexample :
    countFeasible sBase 0 [grassTile, grassTile, otherTile] = 2 ∧
    0 < (2 : Nat) ∧ (2 : Nat) < 3 ∧
    sumFeasibleCost sBase 0 [grassTile, grassTile, otherTile] = 12 ∧
    (CmdPlantTree sBase true 0 0 1 [grassTile, grassTile, otherTile] 0
        (some 131072)).res = CmdResult.ok 6 ∧
    (6 : Int) ≠ 12 := by decide

/-- C2 (amended): Batch partial success.  For a batch of N tiles of which
exactly K (0 < K < N) are individually feasible, provided additionally that
the remaining quota exceeds K (so the limit check never fires mid-batch),
that no tile of the area triggers a failing landscape-clear sub-command,
and that the tree price is positive with non-negative sub-command costs,
CmdPlantTree returns success with cost equal to the sum of the K feasible
tiles' costs, and every non-feasible tile's state is left unmutated. -/
theorem CmdPlantTree_partial_success (s : Settings) (p1 p2 mapSize : Nat)
    (tiles : List Tile) (rng : Nat) (company : Option Nat) (exec : Bool)
    (hp2 : p2 < mapSize)
    (htt : GB p1 0 8 = TREE_INVALID ∨
      IsInsideBS (GB p1 0 8) s.treeBase s.treeCountClimate = true)
    (hsub : ∀ t ∈ tiles, DecisionPlants (classifyPre s (GB p1 0 8) t) = true ∨
      DecisionGated (classifyPre s (GB p1 0 8) t) = false)
    (hK : 0 < countFeasible s (GB p1 0 8) tiles)
    (hKN : countFeasible s (GB p1 0 8) tiles < tiles.length)
    (hlim : (countFeasible s (GB p1 0 8) tiles : Int) < EffectiveTreeLimit s company)
    (hprice : 0 < s.priceBuildTrees)
    (hclear : ∀ (u : Tile) (c : Int) (v : Tile),
      s.landscapeClear u = (CmdResult.ok c, v) → 0 ≤ c) :
    (CmdPlantTree s exec p1 p2 mapSize tiles rng company).res =
      CmdResult.ok (sumFeasibleCost s (GB p1 0 8) tiles) ∧
    List.Forall₂ (fun t u => tileFeasible s (GB p1 0 8) t = false → u = t) tiles
      (CmdPlantTree s exec p1 p2 mapSize tiles rng company).tiles := by
  have c1 : ¬ (p2 ≥ mapSize) := by omega
  have c2 : ¬ ((decide (GB p1 0 8 ≠ TREE_INVALID) &&
      !(IsInsideBS (GB p1 0 8) s.treeBase s.treeCountClimate)) = true) := by
    rcases htt with h | h <;> simp [h]
  have hps := plantLoop_partial_success s (GB p1 0 8) exec tiles rng
    ⟨EffectiveTreeLimit s company, 0, Msg.invalid, 0, []⟩ hsub hlim
  have hpos := sumFeasibleCost_pos s (GB p1 0 8) tiles hK hprice hclear
  simp only [CmdPlantTree]
  rw [if_neg c1, if_neg c2]
  constructor
  · simp only []
    rw [hps.1]
    have hcost := hps.2.1
    simp only [] at hcost
    rw [hcost]
    rw [if_neg (by omega)]
    simp
  · simp only []
    exact hps.2.2.2

theorem CmdPlantTree_partial_success_witness :
    ((0 : Nat) < 1 ∧
      0 < countFeasible sBase 0 [grassTile, grassTile, otherTile] ∧
      countFeasible sBase 0 [grassTile, grassTile, otherTile] < 3 ∧
      (countFeasible sBase 0 [grassTile, grassTile, otherTile] : Int) <
        EffectiveTreeLimit sBase none ∧
      (0 : Int) < sBase.priceBuildTrees) ∧
    (CmdPlantTree sBase true 0 0 1 [grassTile, grassTile, otherTile] 0 none).res =
      CmdResult.ok (sumFeasibleCost sBase 0 [grassTile, grassTile, otherTile]) := by
  have h := CmdPlantTree_partial_success sBase 0 0 1 [grassTile, grassTile, otherTile]
    0 none true (by decide) (by decide)
    (by intro t ht; fin_cases ht <;> decide)
    (by decide) (by decide) (by decide) (by decide)
    (by intro u c v huv; simp [sBase] at huv; omega)
  exact ⟨⟨by decide, by decide, by decide, by decide, by decide⟩, h.1⟩


theorem GB_lt (x s n : Nat) : GB x s n < 2 ^ n := by
  unfold GB
  exact Nat.mod_lt _ (Nat.pos_pow_of_pos n (by omega))

theorem TreeBoundsOK_PlantTreesOnTile (t : Tile) (ty c g : Nat)
    (hc : c + 1 ≤ 4) (hg : g ≤ 6) :
    TreeBoundsOK (PlantTreesOnTile t ty c g) = true := by
  unfold PlantTreesOnTile TreeBoundsOK
  simp
  omega

theorem TreeBoundsOK_SetTreeGroundDensity (t : Tile) (g : TreeGround) (d : Nat) :
    TreeBoundsOK (SetTreeGroundDensity t g d) = TreeBoundsOK t := by
  unfold SetTreeGroundDensity TreeBoundsOK
  cases hk : t.kind <;> simp [hk]

theorem TreeBoundsOK_retag (t : Tile) (z : TropicZone) :
    TreeBoundsOK { t with tropicZone := z } = TreeBoundsOK t := rfl

theorem TreeBoundsOK_ExecPlantNew (s : Settings) (tp : Nat) (cleared : Tile) (rng : Nat) :
    TreeBoundsOK ((ExecPlantNew s tp cleared rng).1) = true := by
  unfold ExecPlantNew
  split
  simp only []
  split
  · rw [TreeBoundsOK_retag]
    exact TreeBoundsOK_PlantTreesOnTile _ _ _ _ (by omega) (by split <;> omega)
  · exact TreeBoundsOK_PlantTreesOnTile _ _ _ _ (by omega) (by split <;> omega)

theorem classifyPre_addStem_count (s : Settings) (tp : Nat) (t : Tile)
    (ty cnt growth : Nat) (gr : TreeGround) (de : Nat)
    (hk : t.kind = TileKind.trees ty cnt growth gr de)
    (hok : cnt ≤ 4)
    (h : classifyPre s tp t = Decision.addStem) : cnt ≤ 3 := by
  unfold classifyPre at h
  split at h
  case h_2 => rename_i heq; rw [hk] at heq; simp at heq
  case h_3 => rename_i heq; rw [hk] at heq; simp at heq
  case h_4 => simp at h
  case h_1 =>
    rename_i ty2 cnt2 growth2 gr2 de2 heq
    rw [hk] at heq
    injection heq with h1 h2 h3 h4 h5
    subst h2
    by_cases hperf : s.treePlacer = TreePlacer.TP_PERFECT
    · rw [if_pos hperf] at h
      split at h
      · split at h <;> simp at h
      · rename_i hcond
        simp at hcond
        omega
    · rw [if_neg hperf] at h
      split at h
      · simp at h
      · rename_i hcond
        omega

theorem TreeBoundsOK_applyPlant (s : Settings) (tp : Nat) (e : Bool) (t : Tile)
    (d : Decision) (rng : Nat) (hok : TreeBoundsOK t = true)
    (hd : d = Decision.addStem → classifyPre s tp t = Decision.addStem) :
    TreeBoundsOK ((applyPlant s tp e t d rng).1) = true := by
  unfold applyPlant
  cases e
  · simpa using hok
  · simp only [Bool.not_true, if_false]
    cases d with
    | grow =>
        cases hk : t.kind <;> simp only [hk] <;> try simpa [hk] using hok
        case trees ty cnt growth gr de =>
          unfold TreeBoundsOK at hok ⊢
          rw [hk] at hok
          simp at hok ⊢
          omega
    | addStem =>
        have hpre := hd rfl
        cases hk : t.kind <;> simp only [hk] <;> try simpa [hk] using hok
        case trees ty cnt growth gr de =>
          unfold TreeBoundsOK at hok ⊢
          rw [hk] at hok
          simp at hok ⊢
          have hcnt : cnt ≤ 3 :=
            classifyPre_addStem_count s tp t ty cnt growth gr de hk hok.1 hpre
          omega
    | plantNew c cleared => exact TreeBoundsOK_ExecPlantNew s tp cleared rng
    | skipC m => simpa using hok
    | skipB m => simpa using hok
    | limitReached => simpa using hok
    | subFail m => simpa using hok

theorem classify_addStem_pre (s : Settings) (tp : Nat) (L : Int) (t : Tile)
    (h : classify s tp L t = Decision.addStem) :
    classifyPre s tp t = Decision.addStem := by
  unfold classify at h
  split at h
  · simp at h
  · simp at h
  · split at h
    · simp at h
    · exact h

theorem plantLoop_bounds (s : Settings) (tp : Nat) (e : Bool) (ts : List Tile)
    (rng : Nat) (a : PlantAcc)
    (hts : ∀ t ∈ ts, TreeBoundsOK t = true) :
    ∀ u ∈ (plantLoop s tp e ts rng a).tiles, TreeBoundsOK u = true := by
  induction ts generalizing rng a with
  | nil => intro u hu; simp [plantLoop] at hu
  | cons t ts ih =>
    have hokt : TreeBoundsOK t = true := hts t (by simp)
    have htl : ∀ v ∈ ts, TreeBoundsOK v = true := fun v hv => hts v (by simp [hv])
    cases hc : classify s tp a.limit t with
    | skipC m =>
        simp only [plantLoop, hc]
        intro u hu
        rcases List.mem_cons.mp hu with rfl | hu
        · exact hokt
        · exact ih _ _ htl u hu
    | skipB m =>
        simp only [plantLoop, hc]
        split
        · intro u hu
          rcases List.mem_cons.mp hu with rfl | hu
          · exact hokt
          · exact htl u hu
        · intro u hu
          rcases List.mem_cons.mp hu with rfl | hu
          · exact hokt
          · exact ih _ _ htl u hu
    | limitReached =>
        simp only [plantLoop, hc]
        split
        · intro u hu
          rcases List.mem_cons.mp hu with rfl | hu
          · exact hokt
          · exact htl u hu
        · intro u hu
          rcases List.mem_cons.mp hu with rfl | hu
          · exact hokt
          · exact ih _ _ htl u hu
    | subFail m =>
        simp only [plantLoop, hc]
        intro u hu
        rcases List.mem_cons.mp hu with rfl | hu
        · exact hokt
        · exact htl u hu
    | grow =>
        have hap : TreeBoundsOK ((applyPlant s tp e t Decision.grow rng).1) = true :=
          TreeBoundsOK_applyPlant s tp e t Decision.grow rng hokt (by intro hcon; simp at hcon)
        simp only [plantLoop, hc]
        split
        · intro u hu
          rcases List.mem_cons.mp hu with rfl | hu
          · exact hap
          · exact htl u hu
        · intro u hu
          rcases List.mem_cons.mp hu with rfl | hu
          · exact hap
          · exact ih _ _ htl u hu
    | addStem =>
        have hap : TreeBoundsOK ((applyPlant s tp e t Decision.addStem rng).1) = true :=
          TreeBoundsOK_applyPlant s tp e t Decision.addStem rng hokt
            (fun _ => classify_addStem_pre s tp a.limit t hc)
        simp only [plantLoop, hc]
        split
        · intro u hu
          rcases List.mem_cons.mp hu with rfl | hu
          · exact hap
          · exact htl u hu
        · intro u hu
          rcases List.mem_cons.mp hu with rfl | hu
          · exact hap
          · exact ih _ _ htl u hu
    | plantNew c cleared =>
        have hap : TreeBoundsOK ((applyPlant s tp e t (Decision.plantNew c cleared) rng).1) = true :=
          TreeBoundsOK_applyPlant s tp e t (Decision.plantNew c cleared) rng hokt
            (by intro hcon; simp at hcon)
        simp only [plantLoop, hc]
        split
        · intro u hu
          rcases List.mem_cons.mp hu with rfl | hu
          · exact hap
          · exact htl u hu
        · intro u hu
          rcases List.mem_cons.mp hu with rfl | hu
          · exact hap
          · exact ih _ _ htl u hu

theorem PlaceTree_bounds (s : Settings) (t : Tile) (r rng : Nat)
    (hok : TreeBoundsOK t = true) :
    TreeBoundsOK ((PlaceTree s t r rng).1) = true := by
  have hcb : GB r 22 2 + 1 ≤ 4 := by
    have := GB_lt r 22 2
    norm_num at this
    omega
  have hgb : min (GB r 16 3) 6 ≤ 6 := by omega
  unfold PlaceTree
  split
  split
  · simpa using hok
  · simp only []
    split
    · split
      · rw [TreeBoundsOK_SetTreeGroundDensity]
        exact TreeBoundsOK_PlantTreesOnTile _ _ _ _ hcb hgb
      · exact TreeBoundsOK_PlantTreesOnTile _ _ _ _ hcb hgb
    · exact TreeBoundsOK_PlantTreesOnTile _ _ _ _ hcb hgb

theorem PlaceTreeGroupStep_bounds (s : Settings) (treetype : Nat) (t : Tile)
    (hok : TreeBoundsOK t = true) :
    TreeBoundsOK ((PlaceTreeGroupStep s treetype t).1) = true := by
  unfold PlaceTreeGroupStep
  split
  · rename_i ty cnt growth g de hk
    split
    · rename_i hlt
      unfold TreeBoundsOK
      simp
      omega
    · split
      · exact TreeBoundsOK_PlantTreesOnTile _ _ _ _ (by omega) (by omega)
      · simpa using hok
  · split
    · exact TreeBoundsOK_PlantTreesOnTile _ _ _ _ (by omega) (by omega)
    · simpa using hok

theorem PlaceTreeGroupAroundTile_bounds (s : Settings) (treetype : Nat)
    (cands : List Tile) (planted : Nat)
    (hts : ∀ t ∈ cands, TreeBoundsOK t = true) :
    ∀ u ∈ (PlaceTreeGroupAroundTile s treetype cands planted).1,
      TreeBoundsOK u = true := by
  induction cands generalizing planted with
  | nil => intro u hu; simp [PlaceTreeGroupAroundTile] at hu
  | cons t ts ih =>
    intro u hu
    simp only [PlaceTreeGroupAroundTile] at hu
    rcases List.mem_cons.mp hu with rfl | hu
    · exact PlaceTreeGroupStep_bounds s treetype t (hts t (by simp))
    · exact ih _ (fun v hv => hts v (by simp [hv])) u hu

theorem TreeBoundsOK_SetTreeGrowth (t : Tile) (g : Nat)
    (hok : TreeBoundsOK t = true) (hg : g ≤ 6) :
    TreeBoundsOK (SetTreeGrowth t g) = true := by
  unfold SetTreeGrowth
  cases hk : t.kind
  case trees ty cnt growth gr de =>
    unfold TreeBoundsOK at hok ⊢
    rw [hk] at hok
    simp at hok ⊢
    omega
  all_goals exact hok

theorem GetTreeGrowth_le (t : Tile) (g : Nat)
    (h : GetTreeGrowth t = some g) (hok : TreeBoundsOK t = true) : g ≤ 6 := by
  unfold GetTreeGrowth at h
  unfold TreeBoundsOK at hok
  cases hk : t.kind <;> rw [hk] at h hok <;> simp at h hok
  omega

theorem TreeBoundsOK_AddTreeGrowth (t : Tile) (g : Nat)
    (h : GetTreeGrowth t = some g) (hok : TreeBoundsOK t = true) (hg : g + 1 ≤ 6) :
    TreeBoundsOK (AddTreeGrowth t 1) = true := by
  unfold GetTreeGrowth at h
  unfold AddTreeGrowth
  cases hk : t.kind <;> rw [hk] at h <;> simp at h
  case trees ty cnt growth gr de =>
    unfold TreeBoundsOK at hok ⊢
    rw [hk] at hok
    simp at hok ⊢
    omega

theorem TreeBoundsOK_subOne (t : Tile) (hok : TreeBoundsOK t = true) :
    TreeBoundsOK (SetTreeGrowth (AddTreeCount t (-1)) 3) = true := by
  unfold AddTreeCount SetTreeGrowth
  cases hk : t.kind <;> simp only [hk]
  case trees ty cnt growth gr de =>
    unfold TreeBoundsOK at hok ⊢
    rw [hk] at hok
    simp at hok ⊢
    omega
  all_goals simpa [TreeBoundsOK, hk] using hok

theorem TreeBoundsOK_addOneReset (t : Tile)
    (h : (match GetTreeCount t with
          | some cnt => decide (cnt < 4)
          | none => false) = true) :
    TreeBoundsOK (SetTreeGrowth (AddTreeCount t 1) 0) = true := by
  unfold GetTreeCount at h
  unfold AddTreeCount SetTreeGrowth
  cases hk : t.kind <;> rw [hk] at h <;> simp at h
  case trees ty cnt growth gr de =>
    unfold TreeBoundsOK
    simp
    omega

theorem TileLoopTreesDesert_bounds (t : Tile) (hok : TreeBoundsOK t = true) :
    TreeBoundsOK (TileLoopTreesDesert t) = true := by
  unfold TileLoopTreesDesert
  (repeat' split) <;>
    first
      | (rw [TreeBoundsOK_SetTreeGroundDensity]; exact hok)
      | exact hok

theorem TileLoopTreesAlps_bounds (s : Settings) (t : Tile)
    (hok : TreeBoundsOK t = true) :
    TreeBoundsOK (TileLoopTreesAlps s t) = true := by
  unfold TileLoopTreesAlps
  simp only []
  (repeat' split) <;>
    first
      | (rw [TreeBoundsOK_SetTreeGroundDensity]; exact hok)
      | exact hok

theorem PlantTreeAtSameHeight_bounds (s : Settings) (t cand : Tile) (rng : Nat)
    (hokc : TreeBoundsOK cand = true) :
    TreeBoundsOK ((PlantTreeAtSameHeight s t cand rng).1) = true := by
  unfold PlantTreeAtSameHeight
  split
  simp only []
  split
  · split
    · exact TreeBoundsOK_PlantTreesOnTile _ _ _ _ (by omega) (by omega)
    · simpa using hokc
  · simpa using hokc

theorem TreeSpreadCase_bounds (s : Settings) (t nb : Tile) (rng : Nat)
    (hok : TreeBoundsOK t = true) (hoknb : TreeBoundsOK nb = true) :
    TreeBoundsOK (TreeSpreadCase s t nb rng).1 = true ∧
    TreeBoundsOK (TreeSpreadCase s t nb rng).2.1 = true := by
  unfold TreeSpreadCase
  split
  · exact ⟨hok, hoknb⟩
  · split
    · split
      · exact ⟨hok, PlantTreeAtSameHeight_bounds s t nb rng hoknb⟩
      · split
        simp only []
        split
        · exact ⟨hok, PlantTreeAtSameHeight_bounds s t nb _ hoknb⟩
        · exact ⟨hok, hoknb⟩
    · simp only []
      split
      · exact ⟨hok, hoknb⟩
      · split
        · exact ⟨hok, hoknb⟩
        · split
          · exact ⟨hok, TreeBoundsOK_PlantTreesOnTile _ _ _ _ (by omega) (by omega)⟩
          · exact ⟨hok, hoknb⟩

theorem TreeGrowthSwitch_bounds (s : Settings) (t nb : Tile) (rng : Nat)
    (hok : TreeBoundsOK t = true) (hoknb : TreeBoundsOK nb = true) :
    TreeBoundsOK (TreeGrowthSwitch s t nb rng).1 = true ∧
    TreeBoundsOK (TreeGrowthSwitch s t nb rng).2.1 = true := by
  unfold TreeGrowthSwitch
  split
  case h_1 hg3 =>
    split
    · exact ⟨TreeBoundsOK_AddTreeGrowth t 3 hg3 hok (by omega), hoknb⟩
    · split
      simp only []
      split
      · exact ⟨TreeBoundsOK_AddTreeGrowth t 3 hg3 hok (by omega), hoknb⟩
      · split
        · split
          · rename_i hA
            rw [Bool.and_eq_true] at hA
            exact ⟨TreeBoundsOK_addOneReset t hA.1, hoknb⟩
          · exact TreeSpreadCase_bounds s t nb _ hok hoknb
        · split
          · rename_i hA
            rw [Bool.and_eq_true] at hA
            exact ⟨TreeBoundsOK_addOneReset t hA.1, hoknb⟩
          · exact TreeSpreadCase_bounds s t nb _ hok hoknb
      · exact TreeSpreadCase_bounds s t nb _ hok hoknb
      · exact ⟨hok, hoknb⟩
  case h_2 hg6 =>
    split
    · exact ⟨TreeBoundsOK_SetTreeGrowth t 0 hok (by omega), hoknb⟩
    · split
      · split
        · exact ⟨TreeBoundsOK_subOne t hok, hoknb⟩
        · split <;>
            constructor <;>
            first
              | exact hoknb
              | exact hok
              | rfl
              | (split <;> rfl)
              | (split <;> exact hoknb)
              | simp [TreeBoundsOK, MakeShoreTile, MakeClearTile, MakeSnowTile]
              | (split <;> simp [TreeBoundsOK, MakeShoreTile, MakeClearTile, MakeSnowTile])
      · exact ⟨hok, hoknb⟩
  case h_3 g hne3 hne6 hgg =>
    have hle := GetTreeGrowth_le t g hgg hok
    constructor
    · exact TreeBoundsOK_AddTreeGrowth t g hgg hok
        (Nat.lt_of_le_of_ne hle (fun h => hne6 h))
    · exact hoknb
  case h_4 => exact ⟨hok, hoknb⟩

theorem TileLoopTreesGround_bounds (s : Settings) (t : Tile)
    (hok : TreeBoundsOK t = true) :
    TreeBoundsOK (TileLoopTreesGround s t) = true := by
  unfold TileLoopTreesGround
  (repeat' split) <;>
    first
      | exact hok
      | exact TileLoopTreesDesert_bounds t hok
      | exact TileLoopTreesAlps_bounds s t hok

theorem TileLoopTreesGrass_bounds (cycle : Nat) (t : Tile)
    (hok : TreeBoundsOK t = true) :
    TreeBoundsOK (TileLoopTreesGrass cycle t) = true := by
  unfold TileLoopTreesGrass
  (repeat' split) <;>
    first
      | exact hok
      | (rw [TreeBoundsOK_SetTreeGroundDensity]; exact hok)

theorem TileLoop_Trees_bounds (s : Settings) (cycle : Nat) (t nb : Tile) (rng : Nat)
    (hok : TreeBoundsOK t = true) (hoknb : TreeBoundsOK nb = true) :
    TreeBoundsOK (TileLoop_Trees s cycle t nb rng).1 = true ∧
    TreeBoundsOK (TileLoop_Trees s cycle t nb rng).2.1 = true := by
  have h2 : TreeBoundsOK (TileLoopTreesGrass cycle (TileLoopTreesGround s t)) = true :=
    TileLoopTreesGrass_bounds cycle _ (TileLoopTreesGround_bounds s t hok)
  unfold TileLoop_Trees
  simp only []
  (repeat' (first | split | simp only [])) <;>
    first
      | exact ⟨h2, hoknb⟩
      | exact TreeGrowthSwitch_bounds s _ nb _ h2 hoknb

theorem CmdPlantTree_bounds (s : Settings) (e : Bool) (p1 p2 mapSize : Nat)
    (tiles : List Tile) (rng : Nat) (company : Option Nat)
    (hts : ∀ t ∈ tiles, TreeBoundsOK t = true) :
    ∀ u ∈ (CmdPlantTree s e p1 p2 mapSize tiles rng company).tiles,
      TreeBoundsOK u = true := by
  unfold CmdPlantTree
  simp only []
  split
  · exact hts
  · split
    · exact hts
    · exact plantLoop_bounds s (GB p1 0 8) e tiles rng _ hts

/-- C9: Tree tile packed-state invariant: every operation that creates or
mutates a trees tile — CmdPlantTree, PlaceTree, PlaceTreeGroupAroundTile
and TileLoop_Trees — keeps the stem count within 0–4 and the growth stage
within 0–6 (TreeBoundsOK) on every tile it outputs, provided the input
tiles satisfy the same bounds; stems are only added below count 4 and the
growth stage written never exceeds 6. -/
theorem tree_packed_state_invariant (s : Settings) (e : Bool)
    (p1 p2 mapSize treetype r rng planted cycle : Nat) (tiles cands : List Tile)
    (t nb : Tile) (company : Option Nat)
    (htiles : ∀ u ∈ tiles, TreeBoundsOK u = true)
    (hcands : ∀ u ∈ cands, TreeBoundsOK u = true)
    (hok : TreeBoundsOK t = true) (hoknb : TreeBoundsOK nb = true) :
    (∀ u ∈ (CmdPlantTree s e p1 p2 mapSize tiles rng company).tiles,
        TreeBoundsOK u = true) ∧
    TreeBoundsOK (PlaceTree s t r rng).1 = true ∧
    (∀ u ∈ (PlaceTreeGroupAroundTile s treetype cands planted).1,
        TreeBoundsOK u = true) ∧
    (TreeBoundsOK (TileLoop_Trees s cycle t nb rng).1 = true ∧
      TreeBoundsOK (TileLoop_Trees s cycle t nb rng).2.1 = true) :=
  ⟨CmdPlantTree_bounds s e p1 p2 mapSize tiles rng company htiles,
   PlaceTree_bounds s t r rng hok,
   PlaceTreeGroupAroundTile_bounds s treetype cands planted hcands,
   TileLoop_Trees_bounds s cycle t nb rng hok hoknb⟩

/-- Witness for the packed-state invariant at a concrete settings/tile
instance. -/
theorem tree_packed_state_invariant_witness :
    (∀ u ∈ ([grassTile] : List Tile), TreeBoundsOK u = true) ∧
    (∀ u ∈ (CmdPlantTree sBase true 0 0 64 [grassTile] 1 (some 131072)).tiles,
        TreeBoundsOK u = true) :=
  ⟨by decide,
   (tree_packed_state_invariant sBase true 0 0 64 0 0 1 0 0 [grassTile] [grassTile]
      grassTile grassTile (some 131072)
      (by decide) (by decide) (by decide) (by decide)).1⟩
